import Mathlib

/-!
# Verification of the statistical core of the setec-ai-hub quality-control engine

Shallow embedding, over `ℚ`, of the pure numeric pipeline found in
`api/utils/msa_calculator.py`, `api/utils/stability_analysis.py`,
`api/utils/normality_tests.py`, `api/utils/capability_indices.py` and
`api/utils/distribution_fitting.py`, together with proofs of the claimed
invariants.

Modelling conventions:
* Python floats are modelled by exact rationals (`ℚ`); `float('inf')` is
  modelled by `⊤ : WithTop ℚ` where the code stores an infinity.
* Transcendental primitives (`np.exp`, `np.log`, `np.sqrt`, `np.power`,
  `np.arcsinh`) are kept abstract as fields of a `RealOps` record; every
  algebraic step of the source is embedded verbatim on top of them, and the
  theorems quantify over the primitives (adding only the analytic facts a
  theorem genuinely needs, e.g. `0 < exp u`).
* `raise ValueError` is modelled by `Except.error`; `try/except` around a
  call is modelled by matching on the `Except` value.
* NumPy `np.isfinite` guards are vacuous in the exact-rational model (no
  overflow), so those branches are noted in comments where they occur.
-/

/-- Mean of a list, `np.mean`: sum divided by length (`0` for the empty list
in this exact model, where Python would produce NaN). -/
def qmean (l : List ℚ) : ℚ := l.sum / l.length

/-- Sample variance with `ddof=1` (the square of `np.std(values, ddof=1)`):
`Σ (x - mean)² / (n - 1)`. -/
def sampleVar (l : List ℚ) : ℚ :=
  ((l.map (fun x => (x - qmean l) ^ 2)).sum) / ((l.length : ℚ) - 1)

/-- `np.sign` on a rational. -/
def qsign (x : ℚ) : ℚ := if 0 < x then 1 else if x < 0 then -1 else 0

/-- `np.diff`: consecutive differences `x[i+1] - x[i]`. -/
def diffs (l : List ℚ) : List ℚ := List.zipWith (fun a b => a - b) (l.drop 1) l

/-- `np.clip(x, lo, hi)`. -/
def qclip (x lo hi : ℚ) : ℚ := min (max x lo) hi

/-- Python `round` (round half to even) followed by `int(...)`. -/
def pyRound (q : ℚ) : ℤ :=
  if q - ⌊q⌋ < 1/2 then ⌊q⌋
  else if 1/2 < q - ⌊q⌋ then ⌊q⌋ + 1
  else if ⌊q⌋ % 2 = 0 then ⌊q⌋ else ⌊q⌋ + 1

theorem pyRound_nonneg {q : ℚ} (hq : 0 ≤ q) : 0 ≤ pyRound q := by
  unfold pyRound
  have h0 : (0 : ℤ) ≤ ⌊q⌋ := by positivity
  split_ifs <;> omega

theorem pyRound_le {q : ℚ} {n : ℤ} (hq : q ≤ (n : ℚ)) : pyRound q ≤ n := by
  unfold pyRound
  have h0 : ⌊q⌋ ≤ n := by
    have := Int.floor_le_floor hq
    simpa using this
  split_ifs with h1 h2 h3
  · exact h0
  · -- fractional part exceeds 1/2: ⌊q⌋ + 1/2 < q ≤ n forces ⌊q⌋ < n
    have hlt : (⌊q⌋ : ℚ) < (n : ℚ) := by linarith
    have : ⌊q⌋ < n := by exact_mod_cast hlt
    omega
  · exact h0
  · -- fractional part exactly 1/2: q = ⌊q⌋ + 1/2 ≤ n forces ⌊q⌋ < n
    have hhalf : q - (⌊q⌋ : ℚ) = 1/2 := le_antisymm (not_lt.mp h2) (not_lt.mp h1)
    have hlt : (⌊q⌋ : ℚ) < (n : ℚ) := by linarith
    have : ⌊q⌋ < n := by exact_mod_cast hlt
    omega

/-!
## MSA engine (`api/utils/msa_calculator.py`)
-/

namespace Msa

/-- `classify_grr` (msa_calculator.py): AIAG classification of %GRR.
Returns `(classification, color_code, description)`. -/
def classify_grr (grr_percent : ℚ) : String × String × String :=
  if grr_percent < 10 then
    ("aceptable", "#10B981", "Sistema de medición aceptable")
  else if grr_percent ≤ 30 then
    ("marginal", "#F59E0B",
      "Sistema de medición marginal - puede ser aceptable dependiendo de la importancia")
  else
    ("inaceptable", "#EF4444", "Sistema de medición inaceptable - necesita mejoras")

/-- `determine_dominant_variation` (msa_calculator.py): dominant source of
variation from the three percentage contributions. -/
def determine_dominant_variation (ev av pv : ℚ) : String :=
  if ev > av ∧ ev > pv then "repeatability"
  else if av > ev ∧ av > pv then "reproducibility"
  else "part_to_part"

/-- One wide row of the MSA measurement table: a part label, an operator
label, and the values of the measurement columns. -/
structure MsaRow (P O : Type) where
  part : P
  oper : O
  meas : List ℚ

/-- `study_info` fragment of `calculate_anova_components`. -/
structure StudyInfo where
  n_operators : ℕ
  n_parts : ℕ
  n_trials : ℕ
  n_total : ℕ

/-- The variance components returned by `calculate_anova_components`.
The ANOVA table rows and the `variance_contributions` display table (rounded
copies of these fields together with F/p-values, which no claim consumes)
are not carried in the record. -/
structure AnovaComponents where
  variance_repeatability : ℚ
  variance_reproducibility : ℚ
  variance_part : ℚ
  variance_total : ℚ
  variance_operator : ℚ
  variance_interaction : ℚ
  study_info : StudyInfo

variable {P O : Type} [DecidableEq P] [DecidableEq O]

/-- `calculate_anova_components` (msa_calculator.py): two-way crossed ANOVA
variance decomposition.  `nTrials` is `len(measurement_cols)`; the wide→long
reshape takes each row's measurement-column values in order. -/
def calculate_anova_components (rows : List (MsaRow P O)) (nTrials : ℕ) :
    AnovaComponents :=
  -- Reshape data to long format: each measurement becomes a separate row
  let long : List (P × O × ℚ) :=
    rows.flatMap (fun r => r.meas.map (fun v => (r.part, r.oper, v)))
  let n_parts : ℕ := ((long.map (fun x => x.1)).dedup).length
  let n_operators : ℕ := ((long.map (fun x => x.2.1)).dedup).length
  let n_total : ℕ := long.length
  let study_info : StudyInfo :=
    { n_operators := n_operators, n_parts := n_parts,
      n_trials := nTrials, n_total := n_total }
  let grand_mean : ℚ := qmean (long.map (fun x => x.2.2))
  let part_mean : P → ℚ := fun p =>
    qmean ((long.filter (fun x => x.1 = p)).map (fun x => x.2.2))
  let oper_mean : O → ℚ := fun o =>
    qmean ((long.filter (fun x => x.2.1 = o)).map (fun x => x.2.2))
  let cell_mean : P × O → ℚ := fun c =>
    qmean ((long.filter (fun x => x.1 = c.1 ∧ x.2.1 = c.2)).map (fun x => x.2.2))
  let ss_total : ℚ := ((long.map (fun x => (x.2.2 - grand_mean) ^ 2)).sum)
  let ss_parts : ℚ := (n_operators : ℚ) * (nTrials : ℚ) *
    (((long.map (fun x => x.1)).dedup).map (fun p => (part_mean p - grand_mean) ^ 2)).sum
  let ss_operators : ℚ := (n_parts : ℚ) * (nTrials : ℚ) *
    (((long.map (fun x => x.2.1)).dedup).map (fun o => (oper_mean o - grand_mean) ^ 2)).sum
  let ss_interaction : ℚ :=
    (((long.map (fun x => (x.1, x.2.1))).dedup).map (fun c =>
      (nTrials : ℚ) *
        (cell_mean c - grand_mean - (part_mean c.1 - grand_mean)
          - (oper_mean c.2 - grand_mean)) ^ 2)).sum
  let ss_equipment : ℚ := ss_total - ss_parts - ss_operators - ss_interaction
  let df_parts : ℤ := (n_parts : ℤ) - 1
  let df_operators : ℤ := (n_operators : ℤ) - 1
  let df_interaction : ℤ := df_parts * df_operators
  let df_equipment : ℤ := (n_total : ℤ) - (n_parts : ℤ) * (n_operators : ℤ)
  let ms_parts : ℚ := ss_parts / ((max df_parts 1 : ℤ) : ℚ)
  let ms_operators : ℚ := ss_operators / ((max df_operators 1 : ℤ) : ℚ)
  let ms_interaction : ℚ := ss_interaction / ((max df_interaction 1 : ℤ) : ℚ)
  let ms_equipment : ℚ := ss_equipment / ((max df_equipment 1 : ℤ) : ℚ)
  -- F-statistics and p-values feed only the displayed ANOVA table; omitted.
  let variance_repeatability : ℚ := max 0 ms_equipment
  let variance_interaction : ℚ := max 0 ((ms_interaction - ms_equipment) / (nTrials : ℚ))
  let variance_operator : ℚ :=
    max 0 ((ms_operators - ms_interaction) / ((n_parts : ℚ) * (nTrials : ℚ)))
  let variance_reproducibility : ℚ := variance_operator + variance_interaction
  let variance_part : ℚ :=
    max 0 ((ms_parts - ms_interaction) / ((n_operators : ℚ) * (nTrials : ℚ)))
  let variance_total0 : ℚ := variance_part + variance_reproducibility + variance_repeatability
  -- Avoid division by zero (the reassignment the source applies before the
  -- percentage table; the reassigned value is what the dict returns)
  let variance_total : ℚ := if variance_total0 < 1e-10 then 1e-10 else variance_total0
  { variance_repeatability := variance_repeatability
    variance_reproducibility := variance_reproducibility
    variance_part := variance_part
    variance_total := variance_total
    variance_operator := variance_operator
    variance_interaction := variance_interaction
    study_info := study_info }

end Msa

/-- C1: GRR classification boundaries: `< 10` → aceptable, `10 ≤ · ≤ 30` →
marginal, `> 30` → inaceptable, with the boundary inputs 9.9 / 10.0 / 30.0 /
30.1 landing on aceptable / marginal / marginal / inaceptable. -/
theorem C1_classify_grr_boundaries :
    (∀ g : ℚ,
      ((Msa.classify_grr g).1 = "aceptable" ↔ g < 10) ∧
      ((Msa.classify_grr g).1 = "marginal" ↔ 10 ≤ g ∧ g ≤ 30) ∧
      ((Msa.classify_grr g).1 = "inaceptable" ↔ 30 < g)) ∧
    (Msa.classify_grr 9.9).1 = "aceptable" ∧
    (Msa.classify_grr 10).1 = "marginal" ∧
    (Msa.classify_grr 30).1 = "marginal" ∧
    (Msa.classify_grr 30.1).1 = "inaceptable" := by
  refine ⟨fun g => ?_, by norm_num [Msa.classify_grr], by norm_num [Msa.classify_grr],
    by norm_num [Msa.classify_grr], by norm_num [Msa.classify_grr]⟩
  simp only [Msa.classify_grr]
  split_ifs with h1 h2
  · exact ⟨iff_of_true rfl h1,
      iff_of_false (by decide) (fun h => absurd h1 (not_lt.mpr h.1)),
      iff_of_false (by decide) (fun h => by linarith)⟩
  · exact ⟨iff_of_false (by decide) h1,
      iff_of_true rfl ⟨not_lt.mp h1, h2⟩,
      iff_of_false (by decide) (not_lt.mpr h2)⟩
  · exact ⟨iff_of_false (by decide) (fun h => by push_neg at h2; linarith),
      iff_of_false (by decide) (fun h => h2 h.2),
      iff_of_true rfl (not_le.mp h2)⟩

/-- C2: every variance component returned by the ANOVA solver is nonnegative,
reproducibility is the sum of the operator and interaction components, and
the returned total equals the sum
repeatability + reproducibility + part to within `1e-9`. -/
theorem C2_anova_components_nonneg_and_total (rows : List (Msa.MsaRow ℕ ℕ))
    (nTrials : ℕ) :
    0 ≤ (Msa.calculate_anova_components rows nTrials).variance_repeatability ∧
    0 ≤ (Msa.calculate_anova_components rows nTrials).variance_operator ∧
    0 ≤ (Msa.calculate_anova_components rows nTrials).variance_interaction ∧
    0 ≤ (Msa.calculate_anova_components rows nTrials).variance_reproducibility ∧
    0 ≤ (Msa.calculate_anova_components rows nTrials).variance_part ∧
    (Msa.calculate_anova_components rows nTrials).variance_reproducibility =
      (Msa.calculate_anova_components rows nTrials).variance_operator +
      (Msa.calculate_anova_components rows nTrials).variance_interaction ∧
    |(Msa.calculate_anova_components rows nTrials).variance_total -
      ((Msa.calculate_anova_components rows nTrials).variance_repeatability +
       (Msa.calculate_anova_components rows nTrials).variance_reproducibility +
       (Msa.calculate_anova_components rows nTrials).variance_part)| ≤ 1e-9 := by
  have key : ∀ a b c : ℚ, 0 ≤ a → 0 ≤ b → 0 ≤ c →
      |(if a + b + c < 1e-10 then (1e-10 : ℚ) else a + b + c) - (c + b + a)| ≤ 1e-9 := by
    intro a b c ha hb hc
    split_ifs with h
    · rw [abs_le]; constructor <;> linarith
    · rw [show a + b + c - (c + b + a) = 0 by ring]
      norm_num
  simp only [Msa.calculate_anova_components]
  and_intros <;>
    first
      | exact le_max_left _ _
      | exact add_nonneg (le_max_left _ _) (le_max_left _ _)
      | rfl
      | trivial
      | exact key _ _ _ (le_max_left _ _)
          (add_nonneg (le_max_left _ _) (le_max_left _ _)) (le_max_left _ _)

/-- C5 counterexample: with repeatability and reproducibility tied at 50%
(part-to-part at 0%), the code returns `part_to_part`, not `repeatability`;
ties are not resolved in favour of repeatability, and the returned source is
not one with the largest contribution. -/
theorem C5_counterexample_tie_goes_to_part :
    Msa.determine_dominant_variation 50 50 0 = "part_to_part" ∧
    Msa.determine_dominant_variation 50 50 0 ≠ "repeatability" := by
  have h : Msa.determine_dominant_variation 50 50 0 = "part_to_part" := by
    norm_num [Msa.determine_dominant_variation]
  exact ⟨h, by rw [h]; decide⟩

/-- C5 (amended): `determine_dominant_variation` returns `repeatability`
exactly when its percentage strictly exceeds both others, `reproducibility`
exactly when its percentage strictly exceeds both others, and `part_to_part`
in every remaining case — so any tie for the maximum falls through to
`part_to_part`. -/
theorem C5_dominant_variation_strict_max (ev av pv : ℚ) :
    (Msa.determine_dominant_variation ev av pv = "repeatability" ↔
      av < ev ∧ pv < ev) ∧
    (Msa.determine_dominant_variation ev av pv = "reproducibility" ↔
      ev < av ∧ pv < av) ∧
    (Msa.determine_dominant_variation ev av pv = "part_to_part" ↔
      ¬(av < ev ∧ pv < ev) ∧ ¬(ev < av ∧ pv < av)) := by
  simp only [Msa.determine_dominant_variation, gt_iff_lt]
  split_ifs with h1 h2
  · exact ⟨iff_of_true rfl h1,
      iff_of_false (by decide) (fun h => by rcases h1 with ⟨a, _⟩; linarith [h.1]),
      iff_of_false (by decide) (fun h => h.1 h1)⟩
  · exact ⟨iff_of_false (by decide) (fun h => by rcases h2 with ⟨a, _⟩; linarith [h.1]),
      iff_of_true rfl h2,
      iff_of_false (by decide) (fun h => h.2 h2)⟩
  · exact ⟨iff_of_false (by decide) h1,
      iff_of_false (by decide) h2,
      iff_of_true rfl ⟨h1, h2⟩⟩

/-!
## Stability engine (`api/utils/stability_analysis.py`)
-/

namespace Stability

/-- E2: I-Chart control limit factor (AIAG, n=2). -/
def E2 : ℚ := 2.66

/-- D4: MR-Chart upper control limit factor. -/
def D4 : ℚ := 3.267

/-- D3: MR-Chart lower control limit factor. -/
def D3 : ℚ := 0

/-- d2: sigma estimation factor. -/
def d2 : ℚ := 1.128

/-- `calculate_moving_ranges`: `MR[i] = |X[i+1] - X[i]|`. -/
def calculate_moving_ranges (values : List ℚ) : List ℚ := (diffs values).map (|·|)

/-- I-Chart limits record. -/
structure IChartLimits where
  center : ℚ
  ucl : ℚ
  lcl : ℚ
  mr_bar : ℚ

/-- `calculate_i_chart_limits`. -/
def calculate_i_chart_limits (values moving_ranges : List ℚ) : IChartLimits :=
  let x_bar := qmean values
  let mr_bar := qmean moving_ranges
  { center := x_bar, ucl := x_bar + E2 * mr_bar, lcl := x_bar - E2 * mr_bar,
    mr_bar := mr_bar }

/-- MR-Chart limits record. -/
structure MRChartLimits where
  center : ℚ
  ucl : ℚ
  lcl : ℚ

/-- `calculate_mr_chart_limits`. -/
def calculate_mr_chart_limits (moving_ranges : List ℚ) : MRChartLimits :=
  let mr_bar := qmean moving_ranges
  { center := mr_bar, ucl := D4 * mr_bar, lcl := D3 * mr_bar }

/-- Violation / out-of-control record `{index, value, limit}` used by the
I-chart OOC detector and by rule 1. -/
structure IndexValueLimit where
  index : ℕ
  value : ℚ
  limit : String
deriving DecidableEq

/-- OOC record of the MR chart `{index, value}`. -/
structure IndexValue where
  index : ℕ
  value : ℚ
deriving DecidableEq

/-- `find_ooc_points_i_chart`. -/
def find_ooc_points_i_chart (values : List ℚ) (limits : IChartLimits) :
    List IndexValueLimit :=
  values.enum.filterMap fun iv =>
    if limits.ucl < iv.2 then some ⟨iv.1, iv.2, "UCL"⟩
    else if iv.2 < limits.lcl then some ⟨iv.1, iv.2, "LCL"⟩
    else none

/-- `find_ooc_points_mr_chart`. -/
def find_ooc_points_mr_chart (moving_ranges : List ℚ) (limits : MRChartLimits) :
    List IndexValue :=
  moving_ranges.enum.filterMap fun iv =>
    if limits.ucl < iv.2 then some ⟨iv.1, iv.2⟩ else none

/-- Sigma zone boundaries (`_calculate_sigma_zones`). -/
structure SigmaZones where
  center : ℚ
  one_sigma_upper : ℚ
  one_sigma_lower : ℚ
  two_sigma_upper : ℚ
  two_sigma_lower : ℚ
  three_sigma_upper : ℚ
  three_sigma_lower : ℚ

/-- `_calculate_sigma_zones`. -/
def calculate_sigma_zones (center ucl lcl : ℚ) : SigmaZones :=
  let three_sigma := ucl - center
  let one_sigma := three_sigma / 3
  let two_sigma := (2 / 3) * three_sigma
  { center := center,
    one_sigma_upper := center + one_sigma, one_sigma_lower := center - one_sigma,
    two_sigma_upper := center + two_sigma, two_sigma_lower := center - two_sigma,
    three_sigma_upper := ucl, three_sigma_lower := lcl }

/-- `{cumple, violations}` result of one stability rule. -/
structure RuleResult (V : Type) where
  cumple : Bool
  violations : List V
deriving DecidableEq

/-- `_rule_1_beyond_limits`. -/
def rule_1_beyond_limits (values : List ℚ) (ucl lcl : ℚ) :
    RuleResult IndexValueLimit :=
  let violations := values.enum.filterMap fun iv =>
    if ucl < iv.2 then some ⟨iv.1, iv.2, "UCL"⟩
    else if iv.2 < lcl then some ⟨iv.1, iv.2, "LCL"⟩
    else none
  ⟨violations.isEmpty, violations⟩

/-- Violation record of rule 2: `{start, end, direction}` (`end` is spelt
`stop` since `end` is reserved in Lean). -/
structure TrendViolation where
  start : ℕ
  stop : ℕ
  direction : String
deriving DecidableEq

/-- The scanning loop of `_rule_2_trending`: walks the remaining direction
signs carrying `(i, run_start, run_direction, run_length, violations)`,
closing a run when the direction changes (or is zero) and recording it when
it spans at least 6 differences; the final run is checked when the list is
exhausted. -/
def rule2Loop : List ℚ → ℕ → ℕ → ℚ → ℕ → List TrendViolation → List TrendViolation
  | [], _i, runStart, runDir, runLen, acc =>
      acc ++ (if 6 ≤ runLen then
        [⟨runStart, runStart + runLen, if 0 < runDir then "up" else "down"⟩] else [])
  | d :: rest, i, runStart, runDir, runLen, acc =>
      if d = runDir ∧ runDir ≠ 0 then
        rule2Loop rest (i + 1) runStart runDir (runLen + 1) acc
      else
        rule2Loop rest (i + 1) i d 1
          (acc ++ (if 6 ≤ runLen then
            [⟨runStart, runStart + runLen, if 0 < runDir then "up" else "down"⟩] else []))

/-- `_rule_2_trending`: runs of consecutive same-sign differences. -/
def rule_2_trending (values : List ℚ) : RuleResult TrendViolation :=
  if values.length < 7 then ⟨true, []⟩
  else
    match (diffs values).map qsign with
    | [] => ⟨true, []⟩  -- no differences: the loop never runs and the final
                        -- check `run_length (= 1) >= 6` fails
    | d :: rest =>
      let violations := rule2Loop rest 1 0 d 1 []
      ⟨violations.isEmpty, violations⟩

/-- Violation record `{start, end}` of rules 3–5. -/
structure ZoneViolation where
  start : ℕ
  stop : ℕ
deriving DecidableEq

/-- The shared scanning loop of rules 3, 4 and 5: find maximal runs of
consecutive points satisfying `inZone`, recording runs of length ≥ 7.
State is `(i, run_start, run_length, violations)`. -/
def zoneRunLoop (inZone : ℚ → Bool) :
    List ℚ → ℕ → ℕ → ℕ → List ZoneViolation → List ZoneViolation
  | [], _i, runStart, runLen, acc =>
      acc ++ (if 7 ≤ runLen then [⟨runStart, runStart + runLen - 1⟩] else [])
  | v :: rest, i, runStart, runLen, acc =>
      if inZone v then
        zoneRunLoop inZone rest (i + 1) (if runLen = 0 then i else runStart)
          (runLen + 1) acc
      else
        zoneRunLoop inZone rest (i + 1) runStart 0
          (acc ++ (if 7 ≤ runLen then [⟨runStart, runStart + runLen - 1⟩] else []))

/-- `_rule_3_stratification`: 7+ consecutive points within 1σ of center. -/
def rule_3_stratification (values : List ℚ) (zones : SigmaZones) :
    RuleResult ZoneViolation :=
  if values.length < 7 then ⟨true, []⟩
  else if zones.three_sigma_upper = zones.center then ⟨true, []⟩
  else
    let violations := zoneRunLoop
      (fun v => decide (zones.one_sigma_lower ≤ v ∧ v ≤ zones.one_sigma_upper))
      values 0 0 0 []
    ⟨violations.isEmpty, violations⟩

/-- `_rule_4_upper_zone`: 7+ consecutive points between 2σ and 3σ above
center. -/
def rule_4_upper_zone (values : List ℚ) (zones : SigmaZones) :
    RuleResult ZoneViolation :=
  if values.length < 7 then ⟨true, []⟩
  else if zones.three_sigma_upper = zones.center then ⟨true, []⟩
  else
    let violations := zoneRunLoop
      (fun v => decide (zones.two_sigma_upper ≤ v ∧ v ≤ zones.three_sigma_upper))
      values 0 0 0 []
    ⟨violations.isEmpty, violations⟩

/-- `_rule_5_lower_zone`: 7+ consecutive points between 2σ and 3σ below
center. -/
def rule_5_lower_zone (values : List ℚ) (zones : SigmaZones) :
    RuleResult ZoneViolation :=
  if values.length < 7 then ⟨true, []⟩
  else if zones.three_sigma_upper = zones.center then ⟨true, []⟩
  else
    let violations := zoneRunLoop
      (fun v => decide (zones.three_sigma_lower ≤ v ∧ v ≤ zones.two_sigma_lower))
      values 0 0 0 []
    ⟨violations.isEmpty, violations⟩

/-- Violation record of rule 6: `{start, end, pattern}`. -/
structure CyclicViolation where
  start : ℕ
  stop : ℕ
  pattern : String
deriving DecidableEq

/-- The scanning loop of `_rule_6_cyclic` over the direction signs, with
state `(i, run_start, alternating_count, prev_direction, violations)`. -/
def rule6Loop : List ℚ → ℕ → ℕ → ℕ → ℚ → List CyclicViolation → List CyclicViolation
  | [], i, runStart, count, _prev, acc =>
      acc ++ (if 7 ≤ count then [⟨runStart, i - 1, "alternating"⟩] else [])
  | d :: rest, i, runStart, count, prev, acc =>
      if d = 0 then
        rule6Loop rest (i + 1) runStart 0 0
          (acc ++ (if 7 ≤ count then [⟨runStart, i - 1, "alternating"⟩] else []))
      else if prev = 0 then
        rule6Loop rest (i + 1) i 1 d acc
      else if d ≠ prev then
        rule6Loop rest (i + 1) runStart (count + 1) d acc
      else
        rule6Loop rest (i + 1) i 1 d
          (acc ++ (if 7 ≤ count then [⟨runStart, i - 1, "alternating"⟩] else []))

/-- `_rule_6_cyclic`: 7+ alternating direction changes. -/
def rule_6_cyclic (values : List ℚ) : RuleResult CyclicViolation :=
  if values.length < 8 then ⟨true, []⟩
  else
    let violations := rule6Loop ((diffs values).map qsign) 0 0 0 0 []
    ⟨violations.isEmpty, violations⟩

/-- Violation record of rule 7: `{start, end, side}`. -/
structure SideViolation where
  start : ℕ
  stop : ℕ
  side : String
deriving DecidableEq

/-- The scanning loop of `_rule_7_one_side` over the side signs, with state
`(i, run_start, run_side, run_length, violations)`. -/
def rule7Loop : List ℚ → ℕ → ℕ → ℚ → ℕ → List SideViolation → List SideViolation
  | [], _i, runStart, runSide, runLen, acc =>
      acc ++ (if 7 ≤ runLen then
        [⟨runStart, runStart + runLen - 1, if 0 < runSide then "above" else "below"⟩] else [])
  | s :: rest, i, runStart, runSide, runLen, acc =>
      if s = runSide ∧ runSide ≠ 0 then
        rule7Loop rest (i + 1) runStart runSide (runLen + 1) acc
      else
        rule7Loop rest (i + 1) i s 1
          (acc ++ (if 7 ≤ runLen then
            [⟨runStart, runStart + runLen - 1, if 0 < runSide then "above" else "below"⟩] else []))

/-- `_rule_7_one_side`: 7+ consecutive points strictly on one side of the
center line. -/
def rule_7_one_side (values : List ℚ) (center : ℚ) : RuleResult SideViolation :=
  if values.length < 7 then ⟨true, []⟩
  else
    match values.map (fun v => qsign (v - center)) with
    | [] => ⟨true, []⟩  -- unreachable: the guard ensures ≥ 7 points
    | s :: rest =>
      let violations := rule7Loop rest 1 0 s 1 []
      ⟨violations.isEmpty, violations⟩

/-- The `rules` record of `evaluate_stability_rules`. -/
structure StabilityRules where
  rule_1 : RuleResult IndexValueLimit
  rule_2 : RuleResult TrendViolation
  rule_3 : RuleResult ZoneViolation
  rule_4 : RuleResult ZoneViolation
  rule_5 : RuleResult ZoneViolation
  rule_6 : RuleResult CyclicViolation
  rule_7 : RuleResult SideViolation

/-- `evaluate_stability_rules`. -/
def evaluate_stability_rules (values : List ℚ) (limits : IChartLimits) :
    StabilityRules :=
  let zones := calculate_sigma_zones limits.center limits.ucl limits.lcl
  { rule_1 := rule_1_beyond_limits values limits.ucl limits.lcl
    rule_2 := rule_2_trending values
    rule_3 := rule_3_stratification values zones
    rule_4 := rule_4_upper_zone values zones
    rule_5 := rule_5_lower_zone values zones
    rule_6 := rule_6_cyclic values
    rule_7 := rule_7_one_side values limits.center }

/-- `i_chart` fragment of the stability result. -/
structure IChartOut where
  center : ℚ
  ucl : ℚ
  lcl : ℚ
  mr_bar : ℚ
  ooc_points : List IndexValueLimit

/-- `mr_chart` fragment of the stability result. -/
structure MRChartOut where
  values : List ℚ
  center : ℚ
  ucl : ℚ
  lcl : ℚ
  ooc_points : List IndexValue

/-- The full result of `perform_stability_analysis`. -/
structure StabilityResult where
  is_stable : Bool
  conclusion : String
  i_chart : IChartOut
  mr_chart : MRChartOut
  rules : StabilityRules
  sigma : ℚ

/-- `perform_stability_analysis`: the complete I-MR stability analysis. -/
def perform_stability_analysis (values : List ℚ) : StabilityResult :=
  let mr := calculate_moving_ranges values
  let i_limits := calculate_i_chart_limits values mr
  let mr_limits := calculate_mr_chart_limits mr
  let i_ooc := find_ooc_points_i_chart values i_limits
  let mr_ooc := find_ooc_points_mr_chart mr mr_limits
  let rules := evaluate_stability_rules values i_limits
  -- unstable if ANY rule is violated or ANY OOC point exists
  let is_stable :=
    (rules.rule_1.cumple && rules.rule_2.cumple && rules.rule_3.cumple &&
     rules.rule_4.cumple && rules.rule_5.cumple && rules.rule_6.cumple &&
     rules.rule_7.cumple) && i_ooc.isEmpty && mr_ooc.isEmpty
  let mr_bar := i_limits.mr_bar
  let sigma := if 0 < mr_bar then mr_bar / d2 else 0
  { is_stable := is_stable
    conclusion := if is_stable then "Proceso Estable" else "Proceso Inestable"
    i_chart := { center := i_limits.center, ucl := i_limits.ucl,
                 lcl := i_limits.lcl, mr_bar := i_limits.mr_bar,
                 ooc_points := i_ooc }
    mr_chart := { values := mr, center := mr_limits.center, ucl := mr_limits.ucl,
                  lcl := mr_limits.lcl, ooc_points := mr_ooc }
    rules := rules
    sigma := sigma }

end Stability

/-- C3: the `is_stable` flag is true exactly when all seven stability rules
report `cumple` and both out-of-control point lists are empty. -/
theorem C3_is_stable_iff_rules_and_ooc (values : List ℚ) :
    (Stability.perform_stability_analysis values).is_stable = true ↔
      ((Stability.perform_stability_analysis values).rules.rule_1.cumple = true ∧
       (Stability.perform_stability_analysis values).rules.rule_2.cumple = true ∧
       (Stability.perform_stability_analysis values).rules.rule_3.cumple = true ∧
       (Stability.perform_stability_analysis values).rules.rule_4.cumple = true ∧
       (Stability.perform_stability_analysis values).rules.rule_5.cumple = true ∧
       (Stability.perform_stability_analysis values).rules.rule_6.cumple = true ∧
       (Stability.perform_stability_analysis values).rules.rule_7.cumple = true) ∧
      (Stability.perform_stability_analysis values).i_chart.ooc_points = [] ∧
      (Stability.perform_stability_analysis values).mr_chart.ooc_points = [] := by
  simp only [Stability.perform_stability_analysis, Bool.and_eq_true,
    List.isEmpty_iff]
  tauto

/-- The amended rule-2 window condition: the (sign) series contains 6
consecutive equal non-zero entries, i.e. the original series contains 6
consecutive non-zero differences of the same sign (7 monotone points). -/
def HasTrendWin (l : List ℚ) : Prop :=
  ∃ a pre post, a ≠ 0 ∧ l = pre ++ List.replicate 6 a ++ post

theorem not_hasTrendWin_of_short {l : List ℚ} (h : l.length < 6) :
    ¬ HasTrendWin l := by
  rintro ⟨a, pre, post, -, rfl⟩
  simp only [List.length_append, List.length_replicate] at h
  omega

theorem hasTrendWin_cons (d : ℚ) (t : List ℚ) :
    HasTrendWin (d :: t) ↔
      (d ≠ 0 ∧ t.take 5 = List.replicate 5 d) ∨ HasTrendWin t := by
  constructor
  · rintro ⟨a, pre, post, ha, heq⟩
    cases pre with
    | nil =>
      rw [List.nil_append, show List.replicate 6 a = a :: List.replicate 5 a from rfl,
        List.cons_append, List.cons.injEq] at heq
      obtain ⟨rfl, ht⟩ := heq
      left
      refine ⟨ha, ?_⟩
      have h5 : (List.replicate 5 d ++ post).take (List.replicate 5 d).length =
          List.replicate 5 d := List.take_left _ _
      rw [List.length_replicate] at h5
      rw [ht, h5]
    | cons x pre' =>
      rw [List.cons_append, List.cons_append, List.cons.injEq] at heq
      exact Or.inr ⟨a, pre', post, ha, heq.2⟩
  · rintro (⟨hd, htake⟩ | ⟨a, pre, post, ha, heq⟩)
    · refine ⟨d, [], t.drop 5, hd, ?_⟩
      rw [List.nil_append, show List.replicate 6 d = d :: List.replicate 5 d from rfl,
        List.cons_append, List.cons.injEq]
      exact ⟨rfl, by rw [← htake, List.take_append_drop]⟩
    · exact ⟨a, d :: pre, post, ha, by rw [heq, List.cons_append, List.cons_append]⟩

theorem take_eq_replicate_of_le {l : List ℚ} {a : ℚ} {j k : ℕ} (hjk : j ≤ k)
    (h : l.take k = List.replicate k a) : l.take j = List.replicate j a := by
  have h2 := congrArg (List.take j) h
  rwa [List.take_take, List.take_replicate, min_eq_left hjk] at h2

/-- Decision core of the rule-2 scanning loop: does a violation ever get
recorded from the given run state on? -/
def run2Bad : List ℚ → ℚ → ℕ → Bool
  | [], _, len => decide (6 ≤ len)
  | d :: rest, dir, len =>
      if d = dir ∧ dir ≠ 0 then run2Bad rest dir (len + 1)
      else decide (6 ≤ len) || run2Bad rest d 1

theorem rule2Loop_eq_nil_iff :
    ∀ (ds : List ℚ) (i s : ℕ) (dir : ℚ) (len : ℕ)
      (acc : List Stability.TrendViolation),
      Stability.rule2Loop ds i s dir len acc = [] ↔
        (acc = [] ∧ run2Bad ds dir len = false) := by
  intro ds
  induction ds with
  | nil =>
    intro i s dir len acc
    simp only [Stability.rule2Loop, run2Bad]
    split_ifs with h <;> simp [h]
  | cons d rest ih =>
    intro i s dir len acc
    simp only [Stability.rule2Loop, run2Bad]
    by_cases h : d = dir ∧ dir ≠ 0
    · rw [if_pos h, if_pos h]
      exact ih _ _ _ _ _
    · rw [if_neg h, if_neg h, ih]
      by_cases h6 : 6 ≤ len
      · simp [h6, List.append_eq_nil]
      · simp [h6, List.append_nil]

theorem run2Bad_iff :
    ∀ (ds : List ℚ) (dir : ℚ) (len : ℕ), (dir = 0 → len ≤ 1) →
      (run2Bad ds dir len = true ↔
        ((dir ≠ 0 ∧ ∃ k, 6 ≤ len + k ∧ ds.take k = List.replicate k dir) ∨
          HasTrendWin ds)) := by
  intro ds
  induction ds with
  | nil =>
    intro dir len hinv
    simp only [run2Bad, decide_eq_true_eq]
    constructor
    · intro h6
      refine Or.inl ⟨fun h0 => by have := hinv h0; omega, 0, by omega, by simp⟩
    · rintro (⟨hdir, k, hk, htake⟩ | hwin)
      · rw [List.take_nil] at htake
        have hk0 : k = 0 := by
          have h2 := htake.symm
          rwa [List.replicate_eq_nil_iff] at h2
        omega
      · exact absurd hwin (not_hasTrendWin_of_short (by simp))
  | cons d rest ih =>
    intro dir len hinv
    simp only [run2Bad]
    by_cases hc : d = dir ∧ dir ≠ 0
    · rw [if_pos hc]
      obtain ⟨hdd, hd0⟩ := hc
      subst hdd
      have hc : d = d ∧ d ≠ 0 := ⟨rfl, hd0⟩
      rw [ih d (len + 1) (fun h0 => absurd h0 hd0)]
      constructor
      · rintro (⟨-, k, hk, ht⟩ | hwin)
        · refine Or.inl ⟨hc.2, k + 1, by omega, ?_⟩
          rw [List.take_succ_cons, ht, ← List.replicate_succ]
        · exact Or.inr ((hasTrendWin_cons d rest).mpr (Or.inr hwin))
      · rintro (⟨-, k, hk, ht⟩ | hwin)
        · cases k with
          | zero =>
            exact Or.inl ⟨hc.2, 0, by omega, by simp⟩
          | succ j =>
            rw [List.take_succ_cons, show List.replicate (j+1) d = d :: List.replicate j d
              from rfl, List.cons.injEq] at ht
            exact Or.inl ⟨hc.2, j, by omega, ht.2⟩
        · rcases (hasTrendWin_cons d rest).mp hwin with ⟨hd0', htake⟩ | hwin'
          · exact Or.inl ⟨hc.2, 5, by omega, htake⟩
          · exact Or.inr hwin'
    · rw [if_neg hc]
      simp only [Bool.or_eq_true, decide_eq_true_eq]
      rw [ih d 1 (fun _ => le_refl 1)]
      constructor
      · rintro (h6 | ⟨hd0, k, hk, ht⟩ | hwin)
        · refine Or.inl ⟨fun h0 => by have := hinv h0; omega, 0, by omega, by simp⟩
        · refine Or.inr ((hasTrendWin_cons d rest).mpr (Or.inl ⟨hd0, ?_⟩))
          exact take_eq_replicate_of_le (by omega) ht
        · exact Or.inr ((hasTrendWin_cons d rest).mpr (Or.inr hwin))
      · rintro (⟨hdir, k, hk, ht⟩ | hwin)
        · cases k with
          | zero => exact Or.inl (by omega)
          | succ j =>
            rw [List.take_succ_cons, show List.replicate (j+1) dir = dir :: List.replicate j dir
              from rfl, List.cons.injEq] at ht
            exact absurd ⟨ht.1, hdir⟩ hc
        · rcases (hasTrendWin_cons d rest).mp hwin with ⟨hd0', htake⟩ | hwin'
          · exact Or.inr (Or.inl ⟨hd0', 5, by omega, htake⟩)
          · exact Or.inr (Or.inr hwin')

theorem length_diffs (l : List ℚ) : (diffs l).length = l.length - 1 := by
  simp only [diffs, List.length_zipWith, List.length_drop]
  omega

/-- C6 counterexample: seven strictly increasing points — only 6 differences,
fewer than the 7 differences (8 monotone points) the claim requires — already
make rule 2 record a violation (`cumple = false`). -/
theorem C6_counterexample_seven_point_run :
    (Stability.rule_2_trending [0, 1, 2, 3, 4, 5, 6]).cumple = false ∧
    (diffs [0, 1, 2, 3, 4, 5, 6]).length = 6 := by
  constructor
  · norm_num [Stability.rule_2_trending, diffs, qsign, Stability.rule2Loop]
  · norm_num [diffs]

/-- C6 (amended): rule 2 records a trending violation exactly when the series
contains 6 consecutive non-zero differences of the same sign (i.e. 7 monotone
points); in particular a monotone run of fewer than 7 points produces no
violation. -/
theorem C6_rule2_trending_window (values : List ℚ) :
    ((Stability.rule_2_trending values).violations ≠ [] ↔
      HasTrendWin ((diffs values).map qsign)) ∧
    ((Stability.rule_2_trending values).cumple = true ↔
      ¬ HasTrendWin ((diffs values).map qsign)) := by
  have hlen : ((diffs values).map qsign).length = values.length - 1 := by
    rw [List.length_map, length_diffs]
  unfold Stability.rule_2_trending
  split_ifs with h7
  · have hw : ¬ HasTrendWin ((diffs values).map qsign) :=
      not_hasTrendWin_of_short (by omega)
    simp [hw]
  · cases hsigns : (diffs values).map qsign with
    | nil => rw [hsigns] at hlen; simp at hlen; omega
    | cons d rest =>
      dsimp only
      have hloop := rule2Loop_eq_nil_iff rest 1 0 d 1 []
      simp only [true_and] at hloop
      have hbad := run2Bad_iff rest d 1 (fun _ => le_refl 1)
      have hbridge :
          ((d ≠ 0 ∧ ∃ k, 6 ≤ 1 + k ∧ rest.take k = List.replicate k d) ∨
            HasTrendWin rest) ↔ HasTrendWin (d :: rest) := by
        rw [hasTrendWin_cons]
        apply or_congr _ Iff.rfl
        apply and_congr_right
        intro hd0
        constructor
        · rintro ⟨k, hk, ht⟩
          exact take_eq_replicate_of_le (by omega) ht
        · intro h
          exact ⟨5, by omega, h⟩
      constructor
      · rw [Ne, hloop, ← hbridge, ← hbad]
        simp
      · rw [List.isEmpty_iff, hloop, ← hbridge, ← hbad]
        simp

/-!
## Normality engine (`api/utils/normality_tests.py`)

The transcendental kernels of NumPy are abstracted into `RealOps`; all
surrounding arithmetic and control flow is embedded step by step.
-/

/-- Abstract transcendental primitives (`np.exp`, `np.log`, `np.sqrt`,
`np.power`, `np.arcsinh`).  The theorems hold for every interpretation,
adding analytic hypotheses (e.g. positivity of `exp`) only where a claim
needs them. -/
structure RealOps where
  exp : ℚ → ℚ
  log : ℚ → ℚ
  sqrt : ℚ → ℚ
  rpow : ℚ → ℚ → ℚ
  asinh : ℚ → ℚ

namespace Normality

/-- `_erf`: Abramowitz–Stegun 7.1.26 approximation of the error function. -/
def erf (ops : RealOps) (x : ℚ) : ℚ :=
  let a1 : ℚ := 0.254829592
  let a2 : ℚ := -0.284496736
  let a3 : ℚ := 1.421413741
  let a4 : ℚ := -1.453152027
  let a5 : ℚ := 1.061405429
  let p : ℚ := 0.3275911
  let s := qsign x
  let x' := |x|
  let t := 1 / (1 + p * x')
  let y := 1 - (((((a5 * t + a4) * t) + a3) * t + a2) * t + a1) * t * ops.exp (-(x' * x'))
  s * y

/-- `_normal_cdf`: `Φ(x) = 0.5 * (1 + erf(x / sqrt 2))`. -/
def normal_cdf (ops : RealOps) (x : ℚ) : ℚ :=
  0.5 * (1 + erf ops (x / ops.sqrt 2))

/-- `_ad_p_value_normal`: piecewise D'Agostino–Stephens p-value, clipped to
`[0, 1]`. -/
def ad_p_value_normal (ops : RealOps) (a2_star : ℚ) : ℚ :=
  let p :=
    if 0.600 ≤ a2_star then
      ops.exp (1.2937 - 5.709 * a2_star + 0.0186 * a2_star ^ 2)
    else if 0.340 ≤ a2_star then
      ops.exp (0.9177 - 4.279 * a2_star - 1.38 * a2_star ^ 2)
    else if 0.200 ≤ a2_star then
      1 - ops.exp (-8.318 + 42.796 * a2_star - 59.938 * a2_star ^ 2)
    else
      1 - ops.exp (-13.436 + 101.14 * a2_star - 223.73 * a2_star ^ 2)
  qclip p 0 1

/-- Result record of `anderson_darling_normal`. -/
structure ADResult where
  statistic : WithTop ℚ
  p_value : ℚ
  is_normal : Bool
  alpha : ℚ
deriving DecidableEq

/-- `anderson_darling_normal`: the A-D normality test.  Raising `ValueError`
for `n < 2` is modelled by `Except.error`; constant data (`std == 0`) returns
the degenerate inline result `{∞, 0, false}`. -/
def anderson_darling_normal (ops : RealOps) (values : List ℚ) :
    Except String ADResult :=
  let n := values.length
  if n < 2 then
    .error "Se requieren al menos 2 valores para la prueba de normalidad."
  else
    let mean := qmean values
    let std := ops.sqrt (sampleVar values)
    -- `std == 0 or np.isnan(std)`: the NaN case cannot arise for n ≥ 2 here
    if std = 0 then
      .ok { statistic := ⊤, p_value := 0, is_normal := false, alpha := 0.05 }
    else
      let y := List.insertionSort (· ≤ ·) (values.map (fun v => (v - mean) / std))
      let phi := y.map (fun z => qclip (normal_cdf ops z) 1e-15 (1 - 1e-15))
      let s := ((phi.zip phi.reverse).enum.map (fun jab =>
        (2 * ((jab.1 : ℚ) + 1) - 1) *
          (ops.log jab.2.1 + ops.log (1 - jab.2.2)))).sum
    let a2 := -(n : ℚ) - s / n
    let a2_star := a2 * (1 + 0.75 / n + 2.25 / (n : ℚ) ^ 2)
    let p_value := ad_p_value_normal ops a2_star
    .ok { statistic := (a2_star : WithTop ℚ), p_value := p_value,
          is_normal := decide ((0.05 : ℚ) ≤ p_value), alpha := 0.05 }

/-- Result record of `box_cox_transform` (`lambda` is spelt `lam`). -/
structure BCResult where
  transformed_values : List ℚ
  lam : ℚ
  shift : Option ℚ
  success : Bool
  ad_after : WithTop ℚ
  p_value_after : ℚ
deriving DecidableEq

/-- The λ grid search of `box_cox_transform` over the (already shifted)
data: fold over λ ∈ {-2.0, -1.9, …, 2.0} carrying
`(best_lambda, best_ad, best_transformed)`.  The `np.isfinite` filter is
vacuous in the exact model; A-D failures (`ValueError`) skip the candidate. -/
def boxCoxSearch (ops : RealOps) (data : List ℚ) :
    Option ℚ × WithTop ℚ × Option (List ℚ) :=
  let lambdas := (List.range 41).map (fun i => -2 + (i : ℚ) / 10)
  lambdas.foldl (fun st lam =>
    let transformed :=
      if |lam| < 0.01 then data.map ops.log
      else data.map (fun x => (ops.rpow x lam - 1) / lam)
    match anderson_darling_normal ops transformed with
    | .error _ => st
    | .ok ad =>
        if ad.statistic < st.2.1 then (some lam, ad.statistic, some transformed)
        else st)
    ((none, ⊤, none) : Option ℚ × WithTop ℚ × Option (List ℚ))

/-- `box_cox_transform`: shift non-positive data, grid-search λ, then
re-test the best transform. -/
def box_cox_transform (ops : RealOps) (values : List ℚ) :
    Except String BCResult :=
  let min_val := (values.min?).getD 0
  let shift : Option ℚ := if min_val ≤ 0 then some (|min_val| + 1) else none
  let data := match shift with
    | some sh => values.map (· + sh)
    | none => values
  let best := boxCoxSearch ops data
  match best.2.2 with
  | none =>
      .ok { transformed_values := values, lam := 1, shift := shift,
            success := false, ad_after := ⊤, p_value_after := 0 }
  | some best_transformed =>
      match anderson_darling_normal ops best_transformed with
      | .error e => .error e
      | .ok final_result =>
          .ok { transformed_values := best_transformed, lam := best.1.getD 1,
                shift := shift, success := final_result.is_normal,
                ad_after := final_result.statistic,
                p_value_after := final_result.p_value }

/-- Johnson SU parameters `{gamma, delta, xi, lambda}`. -/
structure JSParams where
  gamma : ℚ
  delta : ℚ
  xi : ℚ
  lam : ℚ
deriving DecidableEq

/-- `_estimate_johnson_su_params`: moment/quantile-based initial estimates. -/
def estimate_johnson_su_params (ops : RealOps) (values : List ℚ) : JSParams :=
  let n := values.length
  let mean := qmean values
  let std := ops.sqrt (sampleVar values)
  let skew := if 0 < std then qmean (values.map (fun v => ((v - mean) / std) ^ 3)) else 0
  let kurt := if 0 < std then qmean (values.map (fun v => ((v - mean) / std) ^ 4)) - 3 else 0
  let sorted_vals := List.insertionSort (· ≤ ·) values
  let q1_idx := n / 4
  let q2_idx := n / 2
  let q3_idx := 3 * n / 4
  let q1 := sorted_vals.getD (max 0 q1_idx) 0
  let q2 := sorted_vals.getD (max 0 q2_idx) 0
  let q3 := sorted_vals.getD (min (n - 1) q3_idx) 0
  let iqr := if q1 < q3 then q3 - q1 else std
  let xi := q2
  let lam0 := if 0 < iqr then iqr / 1.35 else std
  let lam := max lam0 0.001
  let delta0 := 1 / max 0.5 (ops.sqrt (|kurt| + 1))
  let delta := max 0.1 (min delta0 3)
  let gamma := -0.5 * skew * delta
  { gamma := gamma, delta := delta, xi := xi, lam := lam }

/-- Result record of `johnson_transform`. -/
structure JSResult where
  transformed_values : List ℚ
  family : String
  params : JSParams
  success : Bool
  ad_after : WithTop ℚ
  p_value_after : ℚ
deriving DecidableEq

/-- The 5×5 (γ, δ) grid refinement of `johnson_transform` around the
moment-matching estimates (ξ and λ stay fixed), scored by the A-D
statistic, carrying `(best_params, best_ad, best_transformed)`. -/
def johnsonSearch (ops : RealOps) (values : List ℚ) (params : JSParams) :
    JSParams × WithTop ℚ × Option (List ℚ) :=
  let gamma := params.gamma
  let delta := params.delta
  let xi := params.xi
  let lam := params.lam
  let gamma_range := (List.range 5).map (fun i => (gamma - 1) + (i : ℚ) * (2 / 4))
  let delta_lo := max 0.1 (delta - 0.5)
  let delta_range :=
    (List.range 5).map (fun i => delta_lo + (i : ℚ) * ((delta + 0.5 - delta_lo) / 4))
  gamma_range.foldl (fun st g =>
    delta_range.foldl (fun st d =>
      if d ≤ 0 then st
      else
        let z := values.map (fun x => g + d * ops.asinh ((x - xi) / lam))
        match anderson_darling_normal ops z with
        | .error _ => st
        | .ok ad =>
            if ad.statistic < st.2.1 then
              (({ gamma := g, delta := d, xi := xi, lam := lam } : JSParams),
                ad.statistic, some z)
            else st) st)
    ((params, ⊤, none) : JSParams × WithTop ℚ × Option (List ℚ))

/-- `johnson_transform`: moment-matching estimates, 5×5 grid refinement,
then an A-D re-test of the best candidate (unguarded in the source, so it
may raise). -/
def johnson_transform (ops : RealOps) (values : List ℚ) :
    Except String JSResult :=
  let params := estimate_johnson_su_params ops values
  let best := johnsonSearch ops values params
  match best.2.2 with
  | none =>
      let best_transformed :=
        values.map (fun x => params.gamma + params.delta * ops.asinh ((x - params.xi) / params.lam))
      match anderson_darling_normal ops best_transformed with
      | .ok final_result =>
          .ok { transformed_values := best_transformed, family := "SU",
                params := params,
                success := decide ((0.05 : ℚ) ≤ final_result.p_value),
                ad_after := final_result.statistic,
                p_value_after := final_result.p_value }
      | .error _ =>
          .ok { transformed_values := best_transformed, family := "SU",
                params := params, success := decide ((0.05 : ℚ) ≤ (0 : ℚ)),
                ad_after := ⊤, p_value_after := 0 }
  | some best_transformed =>
      match anderson_darling_normal ops best_transformed with
      | .error e => .error e
      | .ok final_result =>
          .ok { transformed_values := best_transformed, family := "SU",
                params := best.1,
                success := decide ((0.05 : ℚ) ≤ final_result.p_value),
                ad_after := best.2.1,
                p_value_after := final_result.p_value }

/-- The `transformation` metadata of `analyze_normality`. -/
inductive TransformationInfo where
  | box_cox (lam : ℚ) (shift : Option ℚ) (normalized_after : Bool)
  | johnson (family : String) (params : JSParams) (normalized_after : Bool)
deriving DecidableEq

/-- Result record of `analyze_normality`. -/
structure NormResult where
  is_normal : Bool
  ad_statistic : WithTop ℚ
  p_value : ℚ
  conclusion : String
  transformation : Option TransformationInfo
  method : String
deriving DecidableEq

/-- `analyze_normality`: the orchestrator — original A-D test, then Box-Cox,
then Johnson SU, falling back to the original result with `method = "none"`. -/
def analyze_normality (ops : RealOps) (values : List ℚ) :
    Except String NormResult :=
  match anderson_darling_normal ops values with
  | .error e => .error e
  | .ok ad =>
    if ad.is_normal then
      .ok { is_normal := true, ad_statistic := ad.statistic,
            p_value := ad.p_value, conclusion := "Normal",
            transformation := none, method := "original" }
    else
      match box_cox_transform ops values with
      | .error e => .error e
      | .ok bc =>
        if bc.success then
          .ok { is_normal := true, ad_statistic := bc.ad_after,
                p_value := bc.p_value_after, conclusion := "Normal",
                transformation := some (.box_cox bc.lam bc.shift true),
                method := "box_cox" }
        else
          match johnson_transform ops values with
          | .error e => .error e
          | .ok js =>
            if js.success then
              .ok { is_normal := true, ad_statistic := js.ad_after,
                    p_value := js.p_value_after, conclusion := "Normal",
                    transformation := some (.johnson js.family js.params true),
                    method := "johnson" }
            else
              .ok { is_normal := false, ad_statistic := ad.statistic,
                    p_value := ad.p_value, conclusion := "No Normal",
                    transformation := some (.box_cox bc.lam bc.shift false),
                    method := "none" }

end Normality

/-- Invariant of the A-D result record: the `is_normal` flag is exactly the
comparison `p_value ≥ 0.05`, in the degenerate branch as well as the main
branch. -/
theorem ad_result_invariant {ops : RealOps} {values : List ℚ}
    {ad : Normality.ADResult}
    (h : Normality.anderson_darling_normal ops values = Except.ok ad) :
    ad.is_normal = true ↔ (0.05 : ℚ) ≤ ad.p_value := by
  simp only [Normality.anderson_darling_normal] at h
  -- the `n < 2` branch produces an `Except.error`, which `split_ifs`
  -- discharges against `h` on its own; two branches remain
  split_ifs at h with h1 h2
  · rw [Except.ok.injEq] at h
    subst h
    simp only [Bool.false_eq_true, false_iff, not_le]
    norm_num
  · rw [Except.ok.injEq] at h
    subst h
    simp [decide_eq_true_eq]

/-- A successful Box-Cox result re-tested its best transform: its
`p_value_after` is the A-D p-value of the transformed series it returns, and
that test reported normal. -/
theorem bc_success_spec {ops : RealOps} {values : List ℚ}
    {bc : Normality.BCResult}
    (h : Normality.box_cox_transform ops values = Except.ok bc)
    (hs : bc.success = true) :
    ∃ ad : Normality.ADResult,
      Normality.anderson_darling_normal ops bc.transformed_values = Except.ok ad ∧
      bc.p_value_after = ad.p_value ∧ ad.is_normal = true := by
  unfold Normality.box_cox_transform at h
  dsimp only at h
  split at h
  · rw [Except.ok.injEq] at h
    subst h
    exact absurd hs (by simp)
  · split at h
    · exact absurd h (by simp)
    · rw [Except.ok.injEq] at h
      subst h
      rename_i final_result heq
      exact ⟨final_result, heq, rfl, hs⟩

/-- A successful Johnson result's `p_value_after` is ≥ 0.05 and is the A-D
p-value of the transformed series it returns. -/
theorem js_success_spec {ops : RealOps} {values : List ℚ}
    {js : Normality.JSResult}
    (h : Normality.johnson_transform ops values = Except.ok js)
    (hs : js.success = true) :
    (0.05 : ℚ) ≤ js.p_value_after ∧
    ∃ ad : Normality.ADResult,
      Normality.anderson_darling_normal ops js.transformed_values = Except.ok ad ∧
      js.p_value_after = ad.p_value := by
  unfold Normality.johnson_transform at h
  dsimp only at h
  split at h
  · split at h
    · rw [Except.ok.injEq] at h
      subst h
      rename_i final_result heq
      simp only [decide_eq_true_eq] at hs
      exact ⟨hs, final_result, heq, rfl⟩
    · rw [Except.ok.injEq] at h
      subst h
      simp only [decide_eq_true_eq] at hs
      norm_num at hs
  · split at h
    · exact absurd h (by simp)
    · rw [Except.ok.injEq] at h
      subst h
      rename_i final_result heq
      simp only [decide_eq_true_eq] at hs
      exact ⟨hs, final_result, heq, rfl⟩

/-- C4: on every accepted input, `analyze_normality` returns `is_normal`
true exactly when the returned `p_value` is ≥ 0.05, and that `p_value` is
the Anderson-Darling p-value of the series that was actually tested —
the original series for methods `original`/`none`, the transformed series
returned by the Box-Cox / Johnson step otherwise. -/
theorem C4_analyze_normality_is_normal_iff (ops : RealOps) (values : List ℚ)
    (r : Normality.NormResult)
    (h : Normality.analyze_normality ops values = Except.ok r) :
    (r.is_normal = true ↔ (0.05 : ℚ) ≤ r.p_value) ∧
    (∃ ad : Normality.ADResult,
      r.p_value = ad.p_value ∧
      (((r.method = "original" ∨ r.method = "none") ∧
         Normality.anderson_darling_normal ops values = Except.ok ad) ∨
       (∃ bc, r.method = "box_cox" ∧
         Normality.box_cox_transform ops values = Except.ok bc ∧
         Normality.anderson_darling_normal ops bc.transformed_values = Except.ok ad) ∨
       (∃ js, r.method = "johnson" ∧
         Normality.johnson_transform ops values = Except.ok js ∧
         Normality.anderson_darling_normal ops js.transformed_values = Except.ok ad))) := by
  unfold Normality.analyze_normality at h
  split at h
  · exact absurd h (by simp)
  · rename_i ad heq
    split_ifs at h with hnorm
    · rw [Except.ok.injEq] at h
      subst h
      refine ⟨iff_of_true rfl ((ad_result_invariant heq).mp hnorm), ad, rfl,
        Or.inl ⟨Or.inl rfl, heq⟩⟩
    · split at h
      · exact absurd h (by simp)
      · rename_i bc hbc
        split_ifs at h with hbcs
        · rw [Except.ok.injEq] at h
          subst h
          obtain ⟨ad2, htest, hpeq, hadn⟩ := bc_success_spec hbc hbcs
          refine ⟨iff_of_true rfl ?_, ad2, hpeq, Or.inr (Or.inl ⟨bc, rfl, hbc, htest⟩)⟩
          rw [hpeq]
          exact (ad_result_invariant htest).mp hadn
        · split at h
          · exact absurd h (by simp)
          · rename_i js hjs
            split_ifs at h with hjss
            · rw [Except.ok.injEq] at h
              subst h
              obtain ⟨hp, ad3, htest, hpeq⟩ := js_success_spec hjs hjss
              exact ⟨iff_of_true rfl hp, ad3, hpeq,
                Or.inr (Or.inr ⟨js, rfl, hjs, htest⟩)⟩
            · rw [Except.ok.injEq] at h
              subst h
              refine ⟨iff_of_false (by simp) ?_, ad, rfl, Or.inl ⟨Or.inr rfl, heq⟩⟩
              intro hple
              exact hnorm ((ad_result_invariant heq).mpr hple)

/-- A concrete interpretation of the transcendental primitives, used to
exercise the embedded pipeline on closed inputs. -/
def sampleOps : RealOps :=
  { exp := fun _ => 0, log := id, sqrt := fun x => x,
    rpow := fun a _ => a, asinh := fun x => x }

/-- The record `analyze_normality sampleOps [0, 1]` evaluates to. -/
def analyzeWitnessRec : Normality.NormResult :=
  { is_normal := true,
    ad_statistic := (((-77499999999999969 : ℚ) / 8000000000000000 : ℚ) : WithTop ℚ),
    p_value := 1, conclusion := "Normal", transformation := none,
    method := "original" }

set_option maxHeartbeats 1000000 in
theorem C4_witness :
    Normality.analyze_normality sampleOps [0, 1] = Except.ok analyzeWitnessRec ∧
    (analyzeWitnessRec.is_normal = true ↔ (0.05 : ℚ) ≤ analyzeWitnessRec.p_value) := by
  have hev : Normality.analyze_normality sampleOps [0, 1] = Except.ok analyzeWitnessRec := by
    norm_num [Normality.analyze_normality, Normality.anderson_darling_normal,
      Normality.normal_cdf, Normality.erf, Normality.ad_p_value_normal,
      qmean, sampleVar, qsign, qclip, sampleOps, analyzeWitnessRec,
      List.insertionSort, List.orderedInsert, List.zip, List.zipWith, List.enum]
  exact ⟨hev, (C4_analyze_normality_is_normal_iff sampleOps [0, 1] analyzeWitnessRec hev).1⟩

/-- C7 counterexample: on a single value, the Anderson-Darling test raises
`ValueError` (modelled `Except.error`) instead of returning a result, contrary
to the claim that insufficient data is encoded inline in the result. -/
theorem C7_counterexample_ad_raises :
    Normality.anderson_darling_normal sampleOps [5] =
      Except.error "Se requieren al menos 2 valores para la prueba de normalidad." := by
  norm_num [Normality.anderson_darling_normal]

/-- C7 (amended): for every input with fewer than 2 values the
Anderson-Darling test raises `ValueError` (Spanish message), i.e. the
insufficient-data case is signalled as an exception, not encoded in a
returned result. -/
theorem C7_ad_insufficient_data_raises (ops : RealOps) (values : List ℚ)
    (h : values.length < 2) :
    Normality.anderson_darling_normal ops values =
      Except.error "Se requieren al menos 2 valores para la prueba de normalidad." := by
  simp only [Normality.anderson_darling_normal, if_pos h]

theorem C7_witness :
    ([] : List ℚ).length < 2 ∧
    Normality.anderson_darling_normal sampleOps [] =
      Except.error "Se requieren al menos 2 valores para la prueba de normalidad." :=
  ⟨by norm_num, C7_ad_insufficient_data_raises sampleOps [] (by norm_num)⟩

/-!
## Distribution fitting (`api/utils/distribution_fitting.py`)

Only the per-family CDFs and the PPM integration are consumed by the
claims; the MLE/MoM fitting routines are not.
-/

/-- A fitted distribution: the `(dist_name, params)` pair the PPM routines
dispatch on.  `unknown` stands for any unrecognised name. -/
inductive DistParams where
  | normal (mean std : ℚ)
  | weibull (k lam : ℚ)
  | lognormal (mu sigma : ℚ)
  | gamma (alpha beta : ℚ)
  | exponential (lam : ℚ)
  | logistic (mu s : ℚ)
  | extreme_value (mu beta : ℚ)
  | unknown
deriving DecidableEq

namespace Fitting

/-- `_weibull_cdf`: `F(x) = 1 - exp(-(x/λ)^k)` for `x > 0`, else 0. -/
def weibull_cdf (ops : RealOps) (x k lam : ℚ) : ℚ :=
  if x ≤ 0 then 0 else 1 - ops.exp (-(ops.rpow (x / lam) k))

/-- `_lognormal_cdf`: `F(x) = Φ((ln x - μ)/σ)` for `x > 0`, else 0. -/
def lognormal_cdf (ops : RealOps) (x mu sigma : ℚ) : ℚ :=
  if x ≤ 0 then 0 else Normality.normal_cdf ops ((ops.log x - mu) / sigma)

/-- The Stirling/Lanczos branch of `_log_gamma` (`x ≥ 7` after shifting). -/
def logGammaStirling (ops : RealOps) (x : ℚ) : ℚ :=
  let coeffs : List ℚ :=
    [76.18009172947146, -86.50532032941677, 24.01409824083091,
     -1.231739572450155, 0.1208650973866179e-2, -0.5395239384953e-5]
  let tmp := (x + 5.5) - (x + 0.5) * ops.log (x + 5.5)
  let ser := 1.000000000190015 +
    (coeffs.enum.map (fun jc => jc.2 / (x + (jc.1 : ℚ) + 1))).sum
  let res := -tmp + ops.log (2.5066282746310005 * ser / x)
  res

/-- `_log_gamma`: for `0 < x < 7` shift into the Stirling regime via
`Γ(x) = Γ(x+n)/(x·…·(x+n-1))`.  The source returns `float('inf')` for
`x ≤ 0`; that branch is unreachable from the guarded gamma-CDF callers and
is modelled as 0. -/
def log_gamma (ops : RealOps) (x : ℚ) : ℚ :=
  if x ≤ 0 then 0
  else if x < 7 then
    let n := (⌊(7 : ℚ) - x⌋).toNat + 1
    let prod := ((List.range n).map (fun i => x + (i : ℚ))).prod
    logGammaStirling ops (x + (n : ℚ)) - ops.log prod
  else logGammaStirling ops x

/-- The series loop of `_gamma_cdf_series` (`for n in range(1, 200)` with an
early break), carrying `(n, term, sum)`. -/
def gammaSeriesAux (x a : ℚ) : ℕ → ℕ → ℚ → ℚ → ℚ
  | 0, _, _, sum => sum
  | fuel + 1, nn, term, sum =>
      let term' := term * (x / (a + (nn : ℚ)))
      let sum' := sum + term'
      if |term'| < 1e-10 * |sum'| then sum'
      else gammaSeriesAux x a fuel (nn + 1) term' sum'

/-- `_gamma_cdf_series`: series expansion of the regularized incomplete
gamma, clipped to `[0, 1]`. -/
def gamma_cdf_series (ops : RealOps) (a x : ℚ) : ℚ :=
  let log_gamma_a := log_gamma ops a
  let term := 1 / a
  let sum_val := gammaSeriesAux x a 199 1 term term
  let result := ops.exp (-x + a * ops.log x - log_gamma_a) * sum_val
  qclip result 0 1

/-- The modified-Lentz loop of `_gamma_cdf_continued_fraction`
(`for i in range(1, 200)` with an early break), carrying `(i, b, c, d, h)`. -/
def gammaCFAux (a : ℚ) : ℕ → ℕ → ℚ → ℚ → ℚ → ℚ → ℚ
  | 0, _, _b, _c, _d, h => h
  | fuel + 1, i, b, c, d, h =>
      let an := -(i : ℚ) * ((i : ℚ) - a)
      let b' := b + 2
      let d1 := an * d + b'
      let d2 := if |d1| < 1e-30 then 1e-30 else d1
      let c1 := b' + an / c
      let c2 := if |c1| < 1e-30 then 1e-30 else c1
      let d3 := 1 / d2
      let delta := d3 * c2
      let h' := h * delta
      if |delta - 1| < 1e-10 then h'
      else gammaCFAux a fuel (i + 1) b' c2 d3 h'

/-- `_gamma_cdf_continued_fraction`: complementary regularized incomplete
gamma by Lentz's method, clipped to `[0, 1]`. -/
def gamma_cdf_continued_fraction (ops : RealOps) (a x : ℚ) : ℚ :=
  let log_gamma_a := log_gamma ops a
  let b := x + 1 - a
  let c : ℚ := 1 / 1e-30
  let d := 1 / b
  let h := gammaCFAux a 199 1 b c d d
  let result := ops.exp (-x + a * ops.log x - log_gamma_a) * h
  qclip result 0 1

/-- `_gamma_cdf`: guards, then series or continued fraction on `y = x/β`.
The `try/except` fallback (returning 0.5) catches float overflow only, which
cannot occur in the exact model. -/
def gamma_cdf (ops : RealOps) (x alpha beta : ℚ) : ℚ :=
  if x ≤ 0 then 0
  else if alpha ≤ 0 ∨ beta ≤ 0 then 0
  else
    let y := x / beta
    if 700 < y then 1
    else if y < 1e-10 ∧ 1 < alpha then 0
    else if y < alpha + 1 then gamma_cdf_series ops alpha y
    else 1 - gamma_cdf_continued_fraction ops alpha y

/-- `_exponential_cdf`: `F(x) = 1 - exp(-λx)` for `x > 0`, else 0. -/
def exponential_cdf (ops : RealOps) (x lam : ℚ) : ℚ :=
  if x ≤ 0 then 0 else 1 - ops.exp (-(lam * x))

/-- `_logistic_cdf`: numerically stable logistic CDF. -/
def logistic_cdf (ops : RealOps) (x mu s : ℚ) : ℚ :=
  let z := (x - mu) / s
  if 0 ≤ z then 1 / (1 + ops.exp (-z))
  else
    let exp_z := ops.exp z
    exp_z / (1 + exp_z)

/-- `_extreme_value_cdf` (Gumbel): `F(x) = exp(-exp(-(x-μ)/β))`. -/
def extreme_value_cdf (ops : RealOps) (x mu beta : ℚ) : ℚ :=
  let z := (x - mu) / beta
  ops.exp (-(ops.exp (-z)))

/-- The `{ppm_below_lei, ppm_above_les, ppm_total}` record. -/
structure PPMResult where
  ppm_below_lei : ℤ
  ppm_above_les : ℤ
  ppm_total : ℤ
deriving DecidableEq

/-- The CDF `calculate_ppm` (distribution_fitting.py) selects for a
distribution; the fallback branch uses a normal CDF with the default
parameters `mean = 0`, `std = 1`. -/
def cdfOf (ops : RealOps) (dist : DistParams) (x : ℚ) : ℚ :=
  match dist with
  | .normal mean std => Normality.normal_cdf ops ((x - mean) / std)
  | .weibull k lam => weibull_cdf ops x k lam
  | .lognormal mu sigma => lognormal_cdf ops x mu sigma
  | .gamma alpha beta => gamma_cdf ops x alpha beta
  | .exponential lam => exponential_cdf ops x lam
  | .logistic mu s => logistic_cdf ops x mu s
  | .extreme_value mu beta => extreme_value_cdf ops x mu beta
  | .unknown => Normality.normal_cdf ops ((x - 0) / 1)

/-- `calculate_ppm` (distribution_fitting.py): PPM outside the specification
limits via the selected CDF, rounded to integers. -/
def calculate_ppm (ops : RealOps) (dist : DistParams) (lei les : ℚ) :
    PPMResult :=
  let p_below_lei := cdfOf ops dist lei
  let p_above_les := 1 - cdfOf ops dist les
  let ppm_below := pyRound (p_below_lei * 1000000)
  let ppm_above := pyRound (p_above_les * 1000000)
  { ppm_below_lei := ppm_below, ppm_above_les := ppm_above,
    ppm_total := ppm_below + ppm_above }

end Fitting

/-!
## Capability engine (`api/utils/capability_indices.py`)
-/

namespace Capability

/-- `D2_CONSTANT` (AIAG, n=2). -/
def D2_CONSTANT : ℚ := 1.128

/-- `calculate_sigma_within`: `MR̄ / d2`, 0 when `MR̄ ≤ 0`. -/
def calculate_sigma_within (mr_bar : ℚ) : ℚ :=
  if mr_bar ≤ 0 then 0 else mr_bar / D2_CONSTANT

/-- `calculate_sigma_overall`: sample std (`ddof=1`), 0 when `n < 2`. -/
def calculate_sigma_overall (ops : RealOps) (values : List ℚ) : ℚ :=
  if values.length < 2 then 0 else ops.sqrt (sampleVar values)

/-- `calculate_cp`: `(LES - LEI) / (6σ)`, `None` when `σ ≤ 0`. -/
def calculate_cp (lei les sigma : ℚ) : Option ℚ :=
  if sigma ≤ 0 then none else some ((les - lei) / (6 * sigma))

/-- `calculate_cpk`: `(Cpk, Cpu, Cpl)`, all `None` when `σ ≤ 0`. -/
def calculate_cpk (mean lei les sigma : ℚ) : Option ℚ × Option ℚ × Option ℚ :=
  if sigma ≤ 0 then (none, none, none)
  else
    let cpu := (les - mean) / (3 * sigma)
    let cpl := (mean - lei) / (3 * sigma)
    (some (min cpu cpl), some cpu, some cpl)

/-- `calculate_pp`: `(LES - LEI) / (6σ_overall)`, `None` when `σ ≤ 0`. -/
def calculate_pp (lei les sigma_overall : ℚ) : Option ℚ :=
  if sigma_overall ≤ 0 then none else some ((les - lei) / (6 * sigma_overall))

/-- `calculate_ppk`: `(Ppk, Ppu, Ppl)`, all `None` when `σ ≤ 0`. -/
def calculate_ppk (mean lei les sigma_overall : ℚ) :
    Option ℚ × Option ℚ × Option ℚ :=
  if sigma_overall ≤ 0 then (none, none, none)
  else
    let ppu := (les - mean) / (3 * sigma_overall)
    let ppl := (mean - lei) / (3 * sigma_overall)
    (some (min ppu ppl), some ppu, some ppl)

/-- The `{classification, color, level}` record of `classify_capability`. -/
structure Classification where
  classification : String
  color : String
  level : String
deriving DecidableEq

/-- `classify_capability`: industry-standard thresholds (NaN cannot arise in
the exact model, so only the `None` guard remains). -/
def classify_capability (index_value : Option ℚ) : Classification :=
  match index_value with
  | none => { classification := "No Calculable", color := "gray", level := "unknown" }
  | some v =>
    if 1.67 ≤ v then
      { classification := "Excelente", color := "green", level := "excellent" }
    else if 1.33 ≤ v then
      { classification := "Capaz", color := "green", level := "adequate" }
    else if 1 ≤ v then
      { classification := "Marginalmente Capaz", color := "yellow", level := "marginal" }
    else if 0.67 ≤ v then
      { classification := "No Capaz", color := "red", level := "inadequate" }
    else
      { classification := "Muy Deficiente", color := "red", level := "poor" }

/-- `calculate_ppm_normal`: PPM outside spec under a normal model, with the
zero-σ special cases. -/
def calculate_ppm_normal (ops : RealOps) (mean sigma lei les : ℚ) :
    Fitting.PPMResult :=
  if sigma ≤ 0 then
    if mean < lei then
      { ppm_below_lei := 1000000, ppm_above_les := 0, ppm_total := 1000000 }
    else if les < mean then
      { ppm_below_lei := 0, ppm_above_les := 1000000, ppm_total := 1000000 }
    else
      { ppm_below_lei := 0, ppm_above_les := 0, ppm_total := 0 }
  else
    let z_lower := (lei - mean) / sigma
    let z_upper := (les - mean) / sigma
    let p_below := Normality.normal_cdf ops z_lower
    let p_above := 1 - Normality.normal_cdf ops z_upper
    let ppm_below := pyRound (p_below * 1000000)
    let ppm_above := pyRound (p_above * 1000000)
    { ppm_below_lei := ppm_below, ppm_above_les := ppm_above,
      ppm_total := ppm_below + ppm_above }

/-- Shared tail of `_calculate_ppm_from_distribution`: clamp the raw
probabilities at 0, scale to PPM and round. -/
def clampedPPM (p_below p_above : ℚ) : Fitting.PPMResult :=
  let ppm_below := pyRound (max 0 p_below * 1000000)
  let ppm_above := pyRound (max 0 p_above * 1000000)
  { ppm_below_lei := ppm_below, ppm_above_les := ppm_above,
    ppm_total := ppm_below + ppm_above }

/-- `_calculate_ppm_from_distribution` (capability_indices.py): per-family
PPM with positive-support guards (`F(x) = 0` for `x ≤ 0`), `max(0, ·)`
clamping, and a zero fallback for unrecognised names (the `except` branch
catches only float faults, which cannot occur in the exact model). -/
def calculate_ppm_from_distribution (ops : RealOps) (dist : DistParams)
    (lei les : ℚ) : Fitting.PPMResult :=
  match dist with
  | .weibull k lam =>
      clampedPPM (if 0 < lei then Fitting.weibull_cdf ops lei k lam else 0)
        (if 0 < les then 1 - Fitting.weibull_cdf ops les k lam else 0)
  | .lognormal mu sigma =>
      clampedPPM (if 0 < lei then Fitting.lognormal_cdf ops lei mu sigma else 0)
        (if 0 < les then 1 - Fitting.lognormal_cdf ops les mu sigma else 0)
  | .gamma alpha beta =>
      clampedPPM (if 0 < lei then Fitting.gamma_cdf ops lei alpha beta else 0)
        (if 0 < les then 1 - Fitting.gamma_cdf ops les alpha beta else 0)
  | .exponential lam =>
      clampedPPM (if 0 < lei then Fitting.exponential_cdf ops lei lam else 0)
        (if 0 < les then 1 - Fitting.exponential_cdf ops les lam else 0)
  | .logistic mu s =>
      clampedPPM (Fitting.logistic_cdf ops lei mu s)
        (1 - Fitting.logistic_cdf ops les mu s)
  | .extreme_value mu beta =>
      clampedPPM (Fitting.extreme_value_cdf ops lei mu beta)
        (1 - Fitting.extreme_value_cdf ops les mu beta)
  | _ => { ppm_below_lei := 0, ppm_above_les := 0, ppm_total := 0 }

/-- The dist name string of a `DistParams`, as carried in
`fitted_dist['name']`. -/
def distName (dist : DistParams) : String :=
  match dist with
  | .normal _ _ => "normal"
  | .weibull _ _ => "weibull"
  | .lognormal _ _ => "lognormal"
  | .gamma _ _ => "gamma"
  | .exponential _ => "exponential"
  | .logistic _ _ => "logistic"
  | .extreme_value _ _ => "extreme_value"
  | .unknown => "unknown"

/-- Python's `a or b` on optional floats: `a` when it is truthy (present and
non-zero), else `b`. -/
def pyOr (a b : Option ℚ) : Option ℚ :=
  match a with
  | some v => if v ≠ 0 then some v else b
  | none => b

/-- The empirical percentiles record. -/
structure Percentiles where
  p0_135 : ℚ
  p50 : ℚ
  p99_865 : ℚ
deriving DecidableEq

/-- Result of `calculate_capability_non_normal`; keys absent from a branch's
dict are `none`. -/
structure NonNormalResult where
  method : String
  distribution : Option String
  pp : Option ℚ
  ppk : Option ℚ
  percentiles : Option Percentiles
  ppm : Option Fitting.PPMResult
  note : Option String
  ppk_classification : Option Classification
deriving DecidableEq

/-- `calculate_capability_non_normal`: percentile-based indices (for
`n ≥ 10`) plus PPM through the fitted distribution's CDF; for `n < 10`
only the insufficient-data note is returned. -/
def calculate_capability_non_normal (ops : RealOps) (values : List ℚ)
    (lei les : ℚ) (dist : DistParams) : NonNormalResult :=
  let sorted_vals := List.insertionSort (· ≤ ·) values
  let n := sorted_vals.length
  if n < 10 then
    { method := "non_normal", distribution := none, pp := none, ppk := none,
      percentiles := none, ppm := none,
      note := some "Datos insuficientes para cálculo no-normal",
      ppk_classification := none }
  else
    let p0_135_idx := max 0 (27 * n / 20000)
    let p99_865_idx := min (n - 1) (19973 * n / 20000)
    let p50_idx := n / 2
    let p0_135 := sorted_vals.getD p0_135_idx 0
    let p99_865 := sorted_vals.getD p99_865_idx 0
    let p50 := sorted_vals.getD p50_idx 0
    let pp_non_normal : Option ℚ :=
      if p0_135 < p99_865 then some ((les - lei) / (p99_865 - p0_135)) else none
    let ppk_non_normal : Option ℚ :=
      if p50 < p99_865 ∧ p0_135 < p50 then
        let ppk_upper : Option ℚ :=
          if p99_865 ≠ p50 then some ((les - p50) / (p99_865 - p50)) else none
        let ppk_lower : Option ℚ :=
          if p50 ≠ p0_135 then some ((p50 - lei) / (p50 - p0_135)) else none
        match ppk_upper, ppk_lower with
        | some u, some l => some (min u l)
        | _, _ => pyOr ppk_upper ppk_lower
      else none
    let ppm := calculate_ppm_from_distribution ops dist lei les
    { method := "non_normal", distribution := some (distName dist),
      pp := pp_non_normal, ppk := ppk_non_normal,
      percentiles := some { p0_135 := p0_135, p50 := p50, p99_865 := p99_865 },
      ppm := some ppm, note := none,
      -- `classify_capability(ppk) if ppk else {...}`: Python truthiness also
      -- sends ppk == 0.0 to the gray fallback
      ppk_classification := some (match ppk_non_normal with
        | none => { classification := "No Calculable", color := "gray",
                    level := "unknown" }
        | some v =>
            if v = 0 then
              { classification := "No Calculable", color := "gray",
                level := "unknown" }
            else classify_capability (some v)) }

end Capability

/-- C8: whenever the within/overall σ are positive (the indices are defined),
`Cpk = min(Cpu, Cpl) ≤ Cp + 1e-3` and `Ppk = min(Ppu, Ppl) ≤ Pp + 1e-3`. -/
theorem C8_cpk_le_cp_and_ppk_le_pp (mean lei les sw so : ℚ)
    (hw : 0 < sw) (ho : 0 < so) :
    ∃ cp cpk cpu cpl pp ppk ppu ppl : ℚ,
      Capability.calculate_cp lei les sw = some cp ∧
      Capability.calculate_cpk mean lei les sw = (some cpk, some cpu, some cpl) ∧
      Capability.calculate_pp lei les so = some pp ∧
      Capability.calculate_ppk mean lei les so = (some ppk, some ppu, some ppl) ∧
      cpk ≤ cp + 1/1000 ∧ ppk ≤ pp + 1/1000 := by
  have key : ∀ m l u s : ℚ, 0 < s →
      min ((u - m) / (3 * s)) ((m - l) / (3 * s)) ≤ (u - l) / (6 * s) + 1/1000 := by
    intro m l u s hs
    have hsum : (u - m) / (3 * s) + (m - l) / (3 * s) = 2 * ((u - l) / (6 * s)) := by
      field_simp
      ring
    rcases le_total ((u - m) / (3 * s)) ((m - l) / (3 * s)) with h | h
    · rw [min_eq_left h]; linarith
    · rw [min_eq_right h]; linarith
  refine ⟨(les - lei) / (6 * sw),
    min ((les - mean) / (3 * sw)) ((mean - lei) / (3 * sw)),
    (les - mean) / (3 * sw), (mean - lei) / (3 * sw),
    (les - lei) / (6 * so),
    min ((les - mean) / (3 * so)) ((mean - lei) / (3 * so)),
    (les - mean) / (3 * so), (mean - lei) / (3 * so), ?_, ?_, ?_, ?_,
    key mean lei les sw hw, key mean lei les so ho⟩ <;>
    simp [Capability.calculate_cp, Capability.calculate_cpk,
      Capability.calculate_pp, Capability.calculate_ppk, not_le.mpr hw,
      not_le.mpr ho]

theorem C8_witness :
    ∃ cp cpk cpu cpl pp ppk ppu ppl : ℚ,
      Capability.calculate_cp (-1) 1 1 = some cp ∧
      Capability.calculate_cpk 0 (-1) 1 1 = (some cpk, some cpu, some cpl) ∧
      Capability.calculate_pp (-1) 1 2 = some pp ∧
      Capability.calculate_ppk 0 (-1) 1 2 = (some ppk, some ppu, some ppl) ∧
      cpk ≤ cp + 1/1000 ∧ ppk ≤ pp + 1/1000 :=
  C8_cpk_le_cp_and_ppk_le_pp 0 (-1) 1 1 2 (by norm_num) (by norm_num)

/-- C10: with fewer than 10 values, the non-normal capability path returns
`method = non_normal` with `ppk = None`, `ppm = None` and the Spanish
insufficient-data note, computing no percentile-based indices. -/
theorem C10_non_normal_insufficient_data (ops : RealOps) (values : List ℚ)
    (lei les : ℚ) (dist : DistParams) (h : values.length < 10) :
    Capability.calculate_capability_non_normal ops values lei les dist =
      { method := "non_normal", distribution := none, pp := none, ppk := none,
        percentiles := none, ppm := none,
        note := some "Datos insuficientes para cálculo no-normal",
        ppk_classification := none } := by
  unfold Capability.calculate_capability_non_normal
  have hlen : (List.insertionSort (· ≤ ·) values).length < 10 := by
    rwa [List.length_insertionSort]
  rw [if_pos hlen]

theorem C10_witness :
    ([1, 2, 3] : List ℚ).length < 10 ∧
    Capability.calculate_capability_non_normal sampleOps [1, 2, 3] 0 1 .unknown =
      { method := "non_normal", distribution := none, pp := none, ppk := none,
        percentiles := none, ppm := none,
        note := some "Datos insuficientes para cálculo no-normal",
        ppk_classification := none } :=
  ⟨by norm_num,
    C10_non_normal_insufficient_data sampleOps [1, 2, 3] 0 1 .unknown (by norm_num)⟩

/-!
## C9: PPM split and bounds
-/

/-- `qclip x lo hi` lies in `[lo, hi]`. -/
theorem qclip_mem {x lo hi : ℚ} (h : lo ≤ hi) :
    lo ≤ qclip x lo hi ∧ qclip x lo hi ≤ hi :=
  ⟨le_min (le_max_right x lo) h, min_le_right _ _⟩

/-- The quartic factor of the A&S erf polynomial is nonnegative on [0, 1]. -/
theorem erf_r_nonneg (t : ℚ) (h0 : 0 ≤ t) (h1 : t ≤ 1) :
    0 ≤ 1.061405429 * t^4 - 1.453152027 * t^3 + 1.421413741 * t^2
        - 0.284496736 * t + 0.254829592 := by
  have k1 : 0 ≤ 1.061405429 * t^2 - 1.453152027 * t + 0.521413741 := by
    nlinarith [sq_nonneg (2 * 1.061405429 * t - 1.453152027)]
  have k2 : 0 ≤ 0.9 * t^2 - 0.284496736 * t + 0.254829592 := by
    nlinarith [sq_nonneg (1.8 * t - 0.284496736)]
  nlinarith [mul_nonneg (sq_nonneg t) k1, k2]

/-- The quartic factor of the A&S erf polynomial is at most 2 on [0, 1]. -/
theorem erf_r_le_two (t : ℚ) (h0 : 0 ≤ t) (h1 : t ≤ 1) :
    1.061405429 * t^4 - 1.453152027 * t^3 + 1.421413741 * t^2
        - 0.284496736 * t + 0.254829592 ≤ 2 := by
  have h3 : 0 ≤ t^3 := by positivity
  have h4 : t^3 * t ≤ t^3 := by nlinarith
  have h5 : t^2 ≤ 1 := by nlinarith
  nlinarith [h3, h4, h5]

set_option maxHeartbeats 1000000 in
/-- The A&S approximation keeps `erf` in `[-1, 1]` whenever the exponential
primitive is positive and at most 1 on nonpositive arguments. -/
theorem erf_bounds (ops : RealOps)
    (hpos : ∀ u, 0 < ops.exp u) (hle : ∀ u, u ≤ 0 → ops.exp u ≤ 1) (x : ℚ) :
    -1 ≤ Normality.erf ops x ∧ Normality.erf ops x ≤ 1 := by
  unfold Normality.erf
  dsimp only
  have hx : (0 : ℚ) ≤ |x| := abs_nonneg x
  have hden : (1 : ℚ) ≤ 1 + 0.3275911 * |x| := by nlinarith
  have ht0 : (0 : ℚ) ≤ 1 / (1 + 0.3275911 * |x|) := by positivity
  have ht1 : 1 / (1 + 0.3275911 * |x|) ≤ 1 := by
    rw [div_le_one (by linarith)]
    exact hden
  set t : ℚ := 1 / (1 + 0.3275911 * |x|) with hts
  have hr0 := erf_r_nonneg t ht0 ht1
  have hr2 := erf_r_le_two t ht0 ht1
  have hE0 : 0 < ops.exp (-(|x| * |x|)) := hpos _
  have hE1 : ops.exp (-(|x| * |x|)) ≤ 1 := hle _ (by nlinarith)
  set E : ℚ := ops.exp (-(|x| * |x|)) with hEs
  have hq0 : 0 ≤ ((((1.061405429 * t + -1.453152027) * t + 1.421413741) * t
      + -0.284496736) * t + 0.254829592) * t := by nlinarith [mul_nonneg ht0 hr0]
  have hq2 : ((((1.061405429 * t + -1.453152027) * t + 1.421413741) * t
      + -0.284496736) * t + 0.254829592) * t ≤ 2 := by
    nlinarith [mul_le_mul_of_nonneg_right ht1 hr0]
  have hy1 : 1 - ((((1.061405429 * t + -1.453152027) * t + 1.421413741) * t
      + -0.284496736) * t + 0.254829592) * t * E ≤ 1 := by nlinarith
  have hy2 : -1 ≤ 1 - ((((1.061405429 * t + -1.453152027) * t + 1.421413741) * t
      + -0.284496736) * t + 0.254829592) * t * E := by nlinarith
  unfold qsign
  split_ifs <;> constructor <;> nlinarith

/-- The embedded `Φ` stays in `[0, 1]`. -/
theorem normal_cdf_bounds (ops : RealOps)
    (hpos : ∀ u, 0 < ops.exp u) (hle : ∀ u, u ≤ 0 → ops.exp u ≤ 1) (x : ℚ) :
    0 ≤ Normality.normal_cdf ops x ∧ Normality.normal_cdf ops x ≤ 1 := by
  obtain ⟨h1, h2⟩ := erf_bounds ops hpos hle (x / ops.sqrt 2)
  unfold Normality.normal_cdf
  constructor <;> nlinarith

theorem weibull_cdf_bounds (ops : RealOps)
    (hpos : ∀ u, 0 < ops.exp u) (hle : ∀ u, u ≤ 0 → ops.exp u ≤ 1)
    (hrpow : ∀ a b, 0 ≤ a → 0 ≤ ops.rpow a b)
    {x k lam : ℚ} (hlam : 0 < lam) :
    0 ≤ Fitting.weibull_cdf ops x k lam ∧ Fitting.weibull_cdf ops x k lam ≤ 1 := by
  unfold Fitting.weibull_cdf
  split_ifs with hx
  · norm_num
  · have harg : 0 ≤ ops.rpow (x / lam) k :=
      hrpow _ _ (div_nonneg (by linarith) hlam.le)
    have hE0 := hpos (-(ops.rpow (x / lam) k))
    have hE1 := hle (-(ops.rpow (x / lam) k)) (by linarith)
    constructor <;> linarith

theorem lognormal_cdf_bounds (ops : RealOps)
    (hpos : ∀ u, 0 < ops.exp u) (hle : ∀ u, u ≤ 0 → ops.exp u ≤ 1)
    (x mu sigma : ℚ) :
    0 ≤ Fitting.lognormal_cdf ops x mu sigma ∧
      Fitting.lognormal_cdf ops x mu sigma ≤ 1 := by
  unfold Fitting.lognormal_cdf
  split_ifs with hx
  · norm_num
  · exact normal_cdf_bounds ops hpos hle _

theorem gamma_cdf_series_bounds (ops : RealOps) (a x : ℚ) :
    0 ≤ Fitting.gamma_cdf_series ops a x ∧ Fitting.gamma_cdf_series ops a x ≤ 1 := by
  unfold Fitting.gamma_cdf_series
  exact qclip_mem (by norm_num)

theorem gamma_cdf_cf_bounds (ops : RealOps) (a x : ℚ) :
    0 ≤ Fitting.gamma_cdf_continued_fraction ops a x ∧
      Fitting.gamma_cdf_continued_fraction ops a x ≤ 1 := by
  unfold Fitting.gamma_cdf_continued_fraction
  exact qclip_mem (by norm_num)

theorem gamma_cdf_bounds (ops : RealOps) (x alpha beta : ℚ) :
    0 ≤ Fitting.gamma_cdf ops x alpha beta ∧
      Fitting.gamma_cdf ops x alpha beta ≤ 1 := by
  unfold Fitting.gamma_cdf
  dsimp only
  split_ifs with h1 h2 h3 h4 h5
  · norm_num
  · norm_num
  · norm_num
  · norm_num
  · exact gamma_cdf_series_bounds ops alpha (x / beta)
  · obtain ⟨h6, h7⟩ := gamma_cdf_cf_bounds ops alpha (x / beta)
    constructor <;> linarith

theorem exponential_cdf_bounds (ops : RealOps)
    (hpos : ∀ u, 0 < ops.exp u) (hle : ∀ u, u ≤ 0 → ops.exp u ≤ 1)
    {x lam : ℚ} (hlam : 0 < lam) :
    0 ≤ Fitting.exponential_cdf ops x lam ∧
      Fitting.exponential_cdf ops x lam ≤ 1 := by
  unfold Fitting.exponential_cdf
  split_ifs with hx
  · norm_num
  · have hE0 := hpos (-(lam * x))
    have hE1 := hle (-(lam * x)) (by nlinarith [not_le.mp hx])
    constructor <;> linarith

theorem logistic_cdf_bounds (ops : RealOps) (hpos : ∀ u, 0 < ops.exp u)
    (x mu s : ℚ) :
    0 ≤ Fitting.logistic_cdf ops x mu s ∧ Fitting.logistic_cdf ops x mu s ≤ 1 := by
  unfold Fitting.logistic_cdf
  dsimp only
  split_ifs with hz
  · have h1 := hpos (-((x - mu) / s))
    constructor
    · positivity
    · rw [div_le_one (by linarith)]
      linarith
  · have h1 := hpos ((x - mu) / s)
    constructor
    · positivity
    · rw [div_le_one (by linarith)]
      linarith

theorem extreme_value_cdf_bounds (ops : RealOps)
    (hpos : ∀ u, 0 < ops.exp u) (hle : ∀ u, u ≤ 0 → ops.exp u ≤ 1)
    (x mu beta : ℚ) :
    0 ≤ Fitting.extreme_value_cdf ops x mu beta ∧
      Fitting.extreme_value_cdf ops x mu beta ≤ 1 := by
  unfold Fitting.extreme_value_cdf
  dsimp only
  have hinner := hpos (-((x - mu) / beta))
  exact ⟨(hpos _).le, hle _ (by linarith)⟩

/-- Positivity condition for a fitted parameter set: per the fitting
docstrings, the Weibull and exponential scale/rate parameters are positive
(the other families need no assumption). -/
def distScaleOK (d : DistParams) : Prop :=
  match d with
  | .weibull _ lam => 0 < lam
  | .exponential lam => 0 < lam
  | _ => True

/-- `cdfOf` stays in `[0, 1]` for every supported family with admissible
parameters. -/
theorem cdfOf_bounds (ops : RealOps)
    (hpos : ∀ u, 0 < ops.exp u) (hle : ∀ u, u ≤ 0 → ops.exp u ≤ 1)
    (hrpow : ∀ a b, 0 ≤ a → 0 ≤ ops.rpow a b)
    (dist : DistParams) (hd : distScaleOK dist) (x : ℚ) :
    0 ≤ Fitting.cdfOf ops dist x ∧ Fitting.cdfOf ops dist x ≤ 1 := by
  cases dist with
  | normal mean std => exact normal_cdf_bounds ops hpos hle _
  | weibull k lam => exact weibull_cdf_bounds ops hpos hle hrpow hd
  | lognormal mu sigma => exact lognormal_cdf_bounds ops hpos hle _ _ _
  | gamma alpha beta => exact gamma_cdf_bounds ops _ _ _
  | exponential lam => exact exponential_cdf_bounds ops hpos hle hd
  | logistic mu s => exact logistic_cdf_bounds ops hpos _ _ _
  | extreme_value mu beta => exact extreme_value_cdf_bounds ops hpos hle _ _ _
  | unknown => exact normal_cdf_bounds ops hpos hle _

/-- The PPM record invariant claimed in the spec: the total is the sum of
the two sides, and each side lies in `[0, 10⁶]`. -/
def ppm_ok (r : Fitting.PPMResult) : Prop :=
  r.ppm_total = r.ppm_below_lei + r.ppm_above_les ∧
  0 ≤ r.ppm_below_lei ∧ 0 ≤ r.ppm_above_les ∧
  r.ppm_below_lei ≤ 1000000 ∧ r.ppm_above_les ≤ 1000000

/-- Rounded PPM of a probability in `[0, 1]` lies in `[0, 10⁶]`. -/
theorem pyRound_ppm_mem {p : ℚ} (h0 : 0 ≤ p) (h1 : p ≤ 1) :
    0 ≤ pyRound (p * 1000000) ∧ pyRound (p * 1000000) ≤ 1000000 := by
  constructor
  · exact pyRound_nonneg (by positivity)
  · refine pyRound_le ?_
    push_cast
    nlinarith

/-- `clampedPPM` satisfies the PPM invariant when both raw probabilities are
at most 1. -/
theorem clampedPPM_ok {p q : ℚ} (hp : p ≤ 1) (hq : q ≤ 1) :
    ppm_ok (Capability.clampedPPM p q) := by
  have hp' : max 0 p ≤ 1 := max_le (by norm_num) hp
  have hq' : max 0 q ≤ 1 := max_le (by norm_num) hq
  obtain ⟨a1, a2⟩ := pyRound_ppm_mem (le_max_left 0 p) hp'
  obtain ⟨b1, b2⟩ := pyRound_ppm_mem (le_max_left 0 q) hq'
  exact ⟨rfl, a1, b1, a2, b2⟩

/-- C9: every PPM computation — the normal path, the fitted-distribution
path of the capability engine, and the fitted-distribution path of the
fitting module — returns `ppm_total = ppm_below_lei + ppm_above_les` with
both components in `[0, 10⁶]`. -/
theorem C9_ppm_split_and_bounds (ops : RealOps)
    (hpos : ∀ u, 0 < ops.exp u) (hle : ∀ u, u ≤ 0 → ops.exp u ≤ 1)
    (hrpow : ∀ a b, 0 ≤ a → 0 ≤ ops.rpow a b) :
    (∀ mean sigma lei les : ℚ,
      ppm_ok (Capability.calculate_ppm_normal ops mean sigma lei les)) ∧
    (∀ (dist : DistParams) (lei les : ℚ), distScaleOK dist →
      ppm_ok (Capability.calculate_ppm_from_distribution ops dist lei les)) ∧
    (∀ (dist : DistParams) (lei les : ℚ), distScaleOK dist →
      ppm_ok (Fitting.calculate_ppm ops dist lei les)) := by
  refine ⟨?_, ?_, ?_⟩
  · intro mean sigma lei les
    unfold Capability.calculate_ppm_normal
    dsimp only
    split_ifs with h1 h2 h3
    · exact ⟨rfl, by norm_num, by norm_num, by norm_num, by norm_num⟩
    · exact ⟨rfl, by norm_num, by norm_num, by norm_num, by norm_num⟩
    · exact ⟨rfl, by norm_num, by norm_num, by norm_num, by norm_num⟩
    obtain ⟨hb0, hb1⟩ := normal_cdf_bounds ops hpos hle ((lei - mean) / sigma)
    obtain ⟨ha0, ha1⟩ := normal_cdf_bounds ops hpos hle ((les - mean) / sigma)
    obtain ⟨c1, c2⟩ := pyRound_ppm_mem hb0 hb1
    obtain ⟨d1, d2⟩ := pyRound_ppm_mem (by linarith : (0:ℚ) ≤ 1 - Normality.normal_cdf ops ((les - mean) / sigma)) (by linarith)
    exact ⟨rfl, c1, d1, c2, d2⟩
  · intro dist lei les hd
    cases dist with
    | weibull k lam =>
        obtain ⟨hlo, hhi⟩ := weibull_cdf_bounds ops hpos hle hrpow (x := les) (k := k) hd
        obtain ⟨hlo2, hhi2⟩ := weibull_cdf_bounds ops hpos hle hrpow (x := lei) (k := k) hd
        refine clampedPPM_ok ?_ ?_ <;> split_ifs <;> linarith
    | lognormal mu sigma =>
        obtain ⟨hlo, hhi⟩ := lognormal_cdf_bounds ops hpos hle les mu sigma
        obtain ⟨hlo2, hhi2⟩ := lognormal_cdf_bounds ops hpos hle lei mu sigma
        refine clampedPPM_ok ?_ ?_ <;> split_ifs <;> linarith
    | gamma alpha beta =>
        obtain ⟨hlo, hhi⟩ := gamma_cdf_bounds ops les alpha beta
        obtain ⟨hlo2, hhi2⟩ := gamma_cdf_bounds ops lei alpha beta
        refine clampedPPM_ok ?_ ?_ <;> split_ifs <;> linarith
    | exponential lam =>
        obtain ⟨hlo, hhi⟩ := exponential_cdf_bounds ops hpos hle (x := les) hd
        obtain ⟨hlo2, hhi2⟩ := exponential_cdf_bounds ops hpos hle (x := lei) hd
        refine clampedPPM_ok ?_ ?_ <;> split_ifs <;> linarith
    | logistic mu s =>
        obtain ⟨hlo, hhi⟩ := logistic_cdf_bounds ops hpos les mu s
        obtain ⟨hlo2, hhi2⟩ := logistic_cdf_bounds ops hpos lei mu s
        exact clampedPPM_ok (by linarith) (by linarith)
    | extreme_value mu beta =>
        obtain ⟨hlo, hhi⟩ := extreme_value_cdf_bounds ops hpos hle les mu beta
        obtain ⟨hlo2, hhi2⟩ := extreme_value_cdf_bounds ops hpos hle lei mu beta
        exact clampedPPM_ok (by linarith) (by linarith)
    | normal mean std =>
        exact ⟨rfl, le_refl 0, le_refl 0,
          by show (0:ℤ) ≤ 1000000; norm_num, by show (0:ℤ) ≤ 1000000; norm_num⟩
    | unknown =>
        exact ⟨rfl, le_refl 0, le_refl 0,
          by show (0:ℤ) ≤ 1000000; norm_num, by show (0:ℤ) ≤ 1000000; norm_num⟩
  · intro dist lei les hd
    unfold Fitting.calculate_ppm
    dsimp only
    obtain ⟨hb0, hb1⟩ := cdfOf_bounds ops hpos hle hrpow dist hd lei
    obtain ⟨ha0, ha1⟩ := cdfOf_bounds ops hpos hle hrpow dist hd les
    obtain ⟨c1, c2⟩ := pyRound_ppm_mem hb0 hb1
    obtain ⟨d1, d2⟩ := pyRound_ppm_mem
      (by linarith : (0:ℚ) ≤ 1 - Fitting.cdfOf ops dist les) (by linarith)
    exact ⟨rfl, c1, d1, c2, d2⟩

/-- A concrete interpretation of the primitives satisfying the analytic
hypotheses of the PPM bounds (positive `exp`, bounded on nonpositive
arguments, nonnegative `rpow` on nonnegative bases). -/
def posOps : RealOps :=
  { exp := fun u => if u ≤ 0 then 1 / (1 - u) else 1 + u,
    log := id, sqrt := id, rpow := fun a _ => |a|, asinh := id }

theorem posOps_exp_pos : ∀ u, 0 < posOps.exp u := by
  intro u
  simp only [posOps]
  split_ifs with h
  · have : (0:ℚ) < 1 - u := by linarith
    positivity
  · linarith [not_le.mp h]

theorem posOps_exp_le_one : ∀ u, u ≤ 0 → posOps.exp u ≤ 1 := by
  intro u h
  simp only [posOps, if_pos h]
  rw [div_le_one (by linarith)]
  linarith

theorem posOps_rpow_nonneg : ∀ a b, (0:ℚ) ≤ a → 0 ≤ posOps.rpow a b :=
  fun a _ _ => abs_nonneg a

theorem C9_witness :
    ppm_ok (Capability.calculate_ppm_normal posOps 0 1 (-1) 1) ∧
    ppm_ok (Capability.calculate_ppm_from_distribution posOps
      (.logistic 0 1) (-1) 1) ∧
    ppm_ok (Fitting.calculate_ppm posOps (.logistic 0 1) (-1) 1) :=
  ⟨(C9_ppm_split_and_bounds posOps posOps_exp_pos posOps_exp_le_one
      posOps_rpow_nonneg).1 0 1 (-1) 1,
   (C9_ppm_split_and_bounds posOps posOps_exp_pos posOps_exp_le_one
      posOps_rpow_nonneg).2.1 (.logistic 0 1) (-1) 1 trivial,
   (C9_ppm_split_and_bounds posOps posOps_exp_pos posOps_exp_le_one
      posOps_rpow_nonneg).2.2 (.logistic 0 1) (-1) 1 trivial⟩
